import Mathlib

/-!
Shallow embedding of the configuration-resolution core of dcos-deploy
(`dcosdeploy/config.py`): variable resolution, template rendering,
conditional inclusion, include merging, module registry, entity pipeline
and dependency-graph construction, together with theorems checking the
specification's claims against this model.

Modelling conventions:
* Python dicts are insertion-ordered association lists (`List (String × β)`);
  `dictLookup` is `d.get(k)` / `d[k]`, `dictSet` is `d[k] = v` (updating in
  place keeps the original position, appending otherwise, as CPython does).
* Python `None`-able strings are `Option String`; Python truthiness of such a
  value (`not value`) is `pyFalsy`.
* Exceptions are an explicit error type `PyError`; fallible code returns
  `Except PyError`.
-/

set_option maxRecDepth 8192

/-- Python exception kinds that can escape the config loader.
`configurationException` is `dcosdeploy.base.ConfigurationException` (the
spec calls it `ConfigurationError`); the other constructors stand for the
built-in Python exception classes. -/
inductive PyError where
  | configurationException (msg : String)
  | keyError (key : String)
  | typeError (msg : String)
  | valueError (msg : String)
  | importError (msg : String)
  | genericException (msg : String)
deriving DecidableEq

/-- Whether an error is the user-facing `ConfigurationException` kind. -/
def isConfigurationException : PyError → Bool
  | .configurationException _ => true
  | _ => false

/-- Whether an `Except` result is an error. -/
def isError {β : Type} : Except PyError β → Bool
  | .error _ => true
  | .ok _ => false

/-- `d.get(k)` on a Python dict modelled as an insertion-ordered association
list (keys are unique in an actual dict; lookup takes the first match). -/
def dictLookup {β : Type} : List (String × β) → String → Option β
  | [], _ => none
  | (k, v) :: rest, key => if k = key then some v else dictLookup rest key

/-- `d[k] = v` on a Python dict: an existing key keeps its position and gets
the new value, a new key is appended at the end. -/
def dictSet {β : Type} : List (String × β) → String → β → List (String × β)
  | [], key, val => [(key, val)]
  | (k, v) :: rest, key, val =>
      if k = key then (k, val) :: rest else (k, v) :: dictSet rest key val

/-- Python truthiness test `not value` for an optional string:
`None` and the empty string are falsy. -/
def pyFalsy : Option String → Bool
  | none => true
  | some s => s.isEmpty

/-- Python `"%s" % value` for an optional string: `None` prints as "None". -/
def pyFormatValue : Option String → String
  | none => "None"
  | some s => s

/-- An apostrophe, as a string. -/
def apos : String := String.singleton (Char.ofNat 39)

/-- Python `",".join(items)`. -/
def joinComma : List String → String
  | [] => ""
  | [s] => s
  | s :: rest => s ++ "," ++ joinComma rest

/-- `dcosdeploy.config.VariableContainer`: wraps the resolved-variable dict
(the `self.variables` attribute, called `varMap` here because `variables` is
reserved in Lean).  Stored values may be `None` (a declared but unresolved,
non-required variable), hence `Option String` values. -/
structure VariableContainer where
  varMap : List (String × Option String)
deriving DecidableEq

/-- `VariableContainer.get`: `self.variables.get(name)`. A missing key and a
stored `None` both give `None`, exactly like Python `dict.get`. -/
def VariableContainer.get (c : VariableContainer) (name : String) : Option String :=
  match dictLookup c.varMap name with
  | some v => v
  | none => none

/-- `VariableContainer.has`: `name in self.variables`. -/
def VariableContainer.has (c : VariableContainer) (name : String) : Bool :=
  (dictLookup c.varMap name).isSome

/-- One entry of the `variables:` section of a config document.
`fromEnv` is the `from` key (`from` is a Lean keyword); `default` is
`Option (Option String)`: the outer layer is presence of the `default` key,
the inner layer allows an explicit `default: null`. -/
structure VarDef where
  fromEnv : Option String
  default : Option (Option String)
  required : Bool
  values : Option (List String)
deriving DecidableEq

/-- `name.replace("-", "_").upper()` prefixed with `VAR_` (ASCII upper-casing,
which agrees with Python on the identifier-like names used for variables). -/
def derivedEnvName (name : String) : String :=
  "VAR_" ++ String.mk ((name.data.map (fun c => if c = '-' then '_' else c)).map Char.toUpper)

/-- The environment-variable name consulted for a declared variable:
`config.get("from")` if that is a non-empty string (`if not env_name`
covers both a missing key and an empty value), else the derived name. -/
def envNameOf (name : String) (cfg : VarDef) : String :=
  match cfg.fromEnv with
  | some s => if s.isEmpty then derivedEnvName name else s
  | none => derivedEnvName name

/-- `dcosdeploy.config._calculate_variable_value`, with `os.environ` made an
explicit parameter `environ`. -/
def calculate_variable_value (name : String) (cfg : VarDef)
    (provided environ : List (String × String)) : Option String :=
  match dictLookup provided name with
  | some v => some v
  | none =>
    match dictLookup environ (envNameOf name cfg) with
    | some v => some v
    | none =>
      match cfg.default with
      | some d => d
      | none => none

/-- The `values` allow-list membership test `value not in config["values"]`
(negated): Python `None in [strings]` is `False`. -/
def pyValueMem : Option String → List String → Bool
  | some v, allowed => allowed.contains v
  | none, _ => false

/-- The guard `"values" in config and value not in config["values"]` of
`_read_variables`. -/
def valuesViolation (cfg : VarDef) (value : Option String) : Bool :=
  match cfg.values with
  | some allowed => !(pyValueMem value allowed)
  | none => false

/-- The message of the allow-list error raised by `_read_variables`:
`"Value '%s' not allowed for %s. Possible values: %s"`. -/
def valuesErrorMsg (name : String) (value : Option String) (allowed : List String) : String :=
  "Value " ++ apos ++ pyFormatValue value ++ apos ++ " not allowed for " ++ name
    ++ ". Possible values: " ++ joinComma allowed

/-- Prepend a resolved entry to a (fallible) tail of resolved entries. -/
def consResult (name : String) (value : Option String)
    (r : Except PyError (List (String × Option String))) :
    Except PyError (List (String × Option String)) :=
  match r with
  | .error e => .error e
  | .ok res => .ok ((name, value) :: res)

/-- The per-declaration loop of `dcosdeploy.config._read_variables`: resolve
each declared variable in order, checking `required` first and the `values`
allow-list second (the message reads the list from `config["values"]`, which
under the violation guard is exactly `cfg.values`). -/
def read_variables_core (provided environ : List (String × String)) :
    List (String × VarDef) → Except PyError (List (String × Option String))
  | [] => .ok []
  | (name, cfg) :: rest =>
    let value := calculate_variable_value name cfg provided environ
    if pyFalsy value && cfg.required then
      .error (.configurationException ("Missing required variable " ++ name))
    else if valuesViolation cfg value then
      .error (.configurationException (valuesErrorMsg name value (cfg.values.getD [])))
    else
      consResult name value (read_variables_core provided environ rest)

/-- The pass-through loop of `_read_variables`: caller-provided variables not
among the declared ones are appended verbatim. -/
def addProvided : List (String × Option String) → List (String × String) →
    List (String × Option String)
  | acc, [] => acc
  | acc, (n, v) :: rest =>
      if n ∈ acc.map Prod.fst then addProvided acc rest
      else addProvided (acc ++ [(n, some v)]) rest

/-- `dcosdeploy.config._read_variables` (with `os.environ` explicit). -/
def read_variables (varDefs : List (String × VarDef))
    (provided environ : List (String × String)) : Except PyError VariableContainer :=
  match read_variables_core provided environ varDefs with
  | .error e => .error e
  | .ok resolved => .ok ⟨addProvided resolved provided⟩

/-- The `only` loop of `_check_conditions_apply`: return `True` as soon as a
listed variable is undeclared or differs from its expected value.  The
Python `if restriction_only:` guard is a no-op (an empty loop body) and is
dropped. -/
def onlyTriggers (vars : VariableContainer) (o : List (String × String)) : Bool :=
  o.any (fun p => !(vars.has p.1) || !(vars.get p.1 == some p.2))

/-- The `except` loop of `_check_conditions_apply`: return `True` as soon as a
listed variable is declared and equal to its excluded value. -/
def exceptTriggers (vars : VariableContainer) (e : List (String × String)) : Bool :=
  e.any (fun p => vars.has p.1 && (vars.get p.1 == some p.2))

/-- `dcosdeploy.config._check_conditions_apply`: `True` means "skip". -/
def check_conditions_apply (vars : VariableContainer)
    (restrictionOnly restrictionExcept : List (String × String)) : Bool :=
  onlyTriggers vars restrictionOnly || exceptTriggers vars restrictionExcept

/-! ## Template renderer

`VariableContainer.render` delegates the actual substitution to the external
library call `pystache.render` and then fails iff the rendered text still
contains an open `\x7b\x7b` marker.  The library is not part of this
repository, so its substitution step is modelled from the spec. -/

/-- Scan for the closing `\x7d\x7d` of a placeholder: returns the characters
before it (the placeholder name) and the characters after it. -/
def findCloseMarker : List Char → Option (List Char × List Char)
  | [] => none
  | '}' :: '}' :: rest => some ([], rest)
  | c :: rest =>
    match findCloseMarker rest with
    | some (nm, rest2) => some (c :: nm, rest2)
    | none => none

/-- Render the value a variable substitutes to: a stored `None` renders as the
empty string. -/
def renderedValue : Option String → String
  | none => ""
  | some s => s

/-- Modelled from the spec: the substitution engine behind the
`pystache.render` call (an external library, absent from this repository).
Per spec 4.1/2, it "renders `\x7b\x7bvar\x7d\x7d`-style placeholders in text
against a variable set" and unresolved placeholders remain in the output
(they are what the post-condition check of `render` detects).  `fuel`
decreases on every step; the callers pass the input length, which bounds the
number of steps. -/
def substituteFuel (vars : List (String × Option String)) :
    Nat → List Char → List Char
  | 0, l => l
  | fuel + 1, l =>
    match l with
    | [] => []
    | '{' :: '{' :: rest =>
      match findCloseMarker rest with
      | some (nm, rest2) =>
        match dictLookup vars (String.mk nm) with
        | some v => (renderedValue v).data ++ substituteFuel vars fuel rest2
        | none => '{' :: '{' :: (nm ++ '}' :: '}' :: substituteFuel vars fuel rest2)
      | none => '{' :: '{' :: substituteFuel vars fuel rest
    | c :: rest => c :: substituteFuel vars fuel rest

/-- Modelled from the spec: `pystache.render(text, variables)`. -/
def pystacheRender (text : String) (vars : List (String × Option String)) : String :=
  String.mk (substituteFuel vars text.data.length text.data)

/-- The Python dict merge `\x7b**base, **extra\x7d`: every key of `extra` is
set into `base`, values of `extra` winning on collision. -/
def mergeDicts (base extra : List (String × Option String)) :
    List (String × Option String) :=
  extra.foldl (fun acc p => dictSet acc p.1 p.2) base

/-- Does the text contain an open `\x7b\x7b` marker?  This is the truthiness
of `result_text.count("\x7b\x7b")` in `VariableContainer.render`. -/
def hasOpenMarker : List Char → Bool
  | '{' :: '{' :: _ => true
  | _ :: rest => hasOpenMarker rest
  | [] => false

/-- `dcosdeploy.config.VariableContainer.render`: merge `extra_vars` over the
container's variables (for this call only), substitute, then raise
`ConfigurationException("Unresolved variable")` iff an open placeholder
marker remains — a pure post-condition check on the rendered output. -/
def VariableContainer.render (c : VariableContainer) (text : String)
    (extraVars : List (String × Option String)) : Except PyError String :=
  let merged := mergeDicts c.varMap extraVars
  let resultText := pystacheRender text merged
  if hasOpenMarker resultText.data then
    .error (.configurationException "Unresolved variable")
  else
    .ok resultText

/-! ## Include merging (`read_config`, lines 77-83) -/

/-- The inner loop of the include merge in `read_config`: fold the items of
one included document into the accumulated config, raising
`ConfigurationException` when a top-level key is already present. -/
def mergeDoc {β : Type} (acc : List (String × β)) (includePath : String) :
    List (String × β) → Except PyError (List (String × β))
  | [] => .ok acc
  | (key, v) :: rest =>
    if key ∈ acc.map Prod.fst then
      .error (.configurationException
        (key ++ " found in base config and include file " ++ includePath))
    else mergeDoc (acc ++ [(key, v)]) includePath rest

/-- The outer loop of the include merge in `read_config`: fold every included
document, in list order, into the growing config. -/
def mergeIncludes {β : Type} (acc : List (String × β)) :
    List (String × List (String × β)) → Except PyError (List (String × β))
  | [] => .ok acc
  | (includePath, doc) :: rest =>
    match mergeDoc acc includePath doc with
    | .error e => .error e
    | .ok acc2 => mergeIncludes acc2 rest

/-! ## Dependency graph builder (`_build_dependency_tree`) -/

/-- Split a list of characters at its last colon, if any. -/
def rsplitColonCore : List Char → Option (List Char × List Char)
  | [] => none
  | c :: rest =>
    match rsplitColonCore rest with
    | some (pre, post) => some (c :: pre, post)
    | none => if c = ':' then some ([], rest) else none

/-- The dependency-string parse step of `_build_dependency_tree`:
`dependency.rsplit(":", 1)` when the string contains a colon
(`dependency.count(":") > 0`), else the default kind `"create"`. -/
def splitDependency (s : String) : String × String :=
  match rsplitColonCore s.data with
  | some (pre, post) => (String.mk pre, String.mk post)
  | none => (s, "create")

/-- The inner loop of `_build_dependency_tree`: resolve each raw dependency
string of one entity against the parsed deployment objects.  `truthy` is the
Python truthiness of a deployment object (`if not dependency_object` fires on
a missing key and on a falsy object alike); actual deployment objects are
plain class instances, which are always truthy. -/
def resolveDeps {α : Type} (truthy : α → Bool) :
    List String → List (String × α) → Except PyError (List (String × α × String))
  | [], _ => .ok []
  | d :: rest, objects =>
    match dictLookup objects (splitDependency d).1 with
    | none => .error (.genericException ("Could not find " ++ (splitDependency d).1))
    | some o =>
      if truthy o then
        match resolveDeps truthy rest objects with
        | .error e => .error e
        | .ok l => .ok (((splitDependency d).1, o, (splitDependency d).2) :: l)
      else .error (.genericException ("Could not find " ++ (splitDependency d).1))

/-- `dcosdeploy.config._build_dependency_tree`: note that the dangling-
reference failure is a plain `Exception("Could not find %s")`, not a
`ConfigurationException`. -/
def build_dependency_tree {α : Type} (truthy : α → Bool) :
    List (String × List String) → List (String × α) →
    Except PyError (List (String × List (String × α × String)))
  | [], _ => .ok []
  | (name, stringDeps) :: rest, objects =>
    match resolveDeps truthy stringDeps objects with
    | .error e => .error e
    | .ok l =>
      match build_dependency_tree truthy rest objects with
      | .error e => .error e
      | .ok g => .ok ((name, l) :: g)

/-! ## Entity pipeline (`_read_config_entities`)

Type parameters: `δ` is the type-specific payload of an entity config,
`γ` the `ConfigHelper` handed to parsers and preprocessors, `α` the opaque
deployment-object type (with its Python truthiness `truthy`), `μ` the opaque
manager type. -/

/-- One entity section of the config document: the `type` selector, the
`only`/`except` restriction maps, the optional `dependencies` list, and the
type-specific remainder. -/
structure EntityConfig (δ : Type) where
  typeName : String
  only : List (String × String)
  exceptRestriction : List (String × String)
  dependencies : Option (List String)
  payload : δ
deriving DecidableEq

/-- A loaded entity-type module as stored in the `modules` dict of
`_init_modules`: the `parse_config` function and the optional
`preprocess_config` function. -/
structure EntityModule (δ γ α : Type) where
  parseConfig : String → EntityConfig δ → γ → α
  preprocessConfig : Option (String → EntityConfig δ → γ → List (String × EntityConfig δ))

/-- A top-level value of the (merged) config document: one of the three
reserved metadata sections, or an entity section. -/
inductive ConfigValue (δ : Type) where
  | varsSection (vs : List (String × VarDef))
  | modulesSection (ms : List String)
  | includesSection (paths : List String)
  | entity (ec : EntityConfig δ)
deriving DecidableEq

/-- `name in ["variables", "modules", "includes"]`. -/
def isReservedKey (name : String) : Bool :=
  name == "variables" || name == "modules" || name == "includes"

/-- `entity_config.get("dependencies", None)` filtered by the Python
truthiness guard `if dependencies:` — `None` and `[]` record nothing. -/
def truthyDeps {δ : Type} (ec : EntityConfig δ) : Option (List String) :=
  match ec.dependencies with
  | some l => if l.isEmpty then none else some l
  | none => none

/-- The inner loop of `_read_config_entities` over the (possibly preprocessed)
entities of one section: filter by `only`/`except`, parse, and record the
deployment object and any truthy `dependencies` list.  Parsing is a pure
function in this model, so the loop is total. -/
def processExpanded {δ γ α : Type} (vars : VariableContainer)
    (parse : String → EntityConfig δ → γ → α) (helper : γ) :
    List (String × EntityConfig δ) → List (String × α) →
    List (String × List String) → List (String × α) × List (String × List String)
  | [], objects, deps => (objects, deps)
  | (name, ec) :: rest, objects, deps =>
    if check_conditions_apply vars ec.only ec.exceptRestriction then
      processExpanded vars parse helper rest objects deps
    else
      processExpanded vars parse helper rest
        (dictSet objects name (parse name ec helper))
        (match truthyDeps ec with
         | some l => dictSet deps name l
         | none => deps)

/-- The preprocessor fan-out of one section: the sequence of `(name, config)`
pairs the section expands to — `preprocess_config(name, entity_config,
config_helper)` when the module declares a preprocessor, else the single
input pair. -/
def expandWith {δ γ α : Type} (m : EntityModule δ γ α) (name : String)
    (ec : EntityConfig δ) (helper : γ) : List (String × EntityConfig δ) :=
  match m.preprocessConfig with
  | some pp => pp name ec helper
  | none => [(name, ec)]

/-- The outer loop of `_read_config_entities`: skip the reserved keys, look
the section's module up by its `type` (`modules[entity_config["type"]]`
raises `KeyError` on an unknown type), preprocess (fan-out), and process the
resulting entities.  A non-dict section value makes the subscription
`entity_config["type"]` raise a `TypeError`. -/
def processEntities {δ γ α : Type} (modules : List (String × EntityModule δ γ α))
    (vars : VariableContainer) (helper : γ) :
    List (String × ConfigValue δ) → List (String × α) →
    List (String × List String) →
    Except PyError (List (String × α) × List (String × List String))
  | [], objects, deps => .ok (objects, deps)
  | (name, v) :: rest, objects, deps =>
    if isReservedKey name then processEntities modules vars helper rest objects deps
    else
      match v with
      | .entity ec =>
        match dictLookup modules ec.typeName with
        | none => .error (.keyError ec.typeName)
        | some m =>
          processEntities modules vars helper rest
            (processExpanded vars m.parseConfig helper
              (expandWith m name ec helper) objects deps).1
            (processExpanded vars m.parseConfig helper
              (expandWith m name ec helper) objects deps).2
      | _ => .error (.typeError "entity section is not a mapping")

/-- `dcosdeploy.config._read_config_entities` (with the deployment-object
truthiness explicit): process all sections starting from empty dicts, then
build the dependency tree from the recorded raw dependencies. -/
def read_config_entities {δ γ α : Type} (modules : List (String × EntityModule δ γ α))
    (vars : VariableContainer) (helper : γ) (truthy : α → Bool)
    (config : List (String × ConfigValue δ)) :
    Except PyError (List (String × α) × List (String × List (String × α × String))) :=
  match processEntities modules vars helper config [] [] with
  | .error e => .error e
  | .ok (objects, depsMap) =>
    match build_dependency_tree truthy depsMap objects with
    | .error e => .error e
    | .ok graph => .ok (objects, graph)

/-! ## Module registry (`_init_modules`) -/

/-- What a loaded Python entity-type module exposes: `__config__` (the manager
registration key), `__manager__()` (the manager singleton), `__config_name__`
(the entity `type` it handles), `parse_config`, and optionally
`preprocess_config`. -/
structure PyModule (δ γ α μ : Type) where
  configKey : String
  manager : μ
  configName : String
  parseConfig : String → EntityConfig δ → γ → α
  preprocessConfig : Option (String → EntityConfig δ → γ → List (String × EntityConfig δ))

/-- Split a list of characters at its first colon, if any. -/
def splitFirstColon : List Char → Option (List Char × List Char)
  | [] => none
  | c :: rest =>
    if c = ':' then some ([], rest)
    else
      match splitFirstColon rest with
      | some (pre, post) => some (c :: pre, post)
      | none => none

/-- The search-path handling of `_init_modules`: when a module identifier
contains a colon, `base_path, module_path = module_path.split(":")` unpacks
it — which raises a `ValueError` unless there is exactly one colon.  The
`sys.path.insert(0, base_path)` side effect does not influence the abstract
`importModule` parameter and is not modelled further. -/
def resolveModulePath (p : String) : Except PyError String :=
  match splitFirstColon p.data with
  | none => .ok p
  | some (_, rest) =>
    if rest.contains ':' then
      .error (.valueError "too many values to unpack (expected 2)")
    else .ok (String.mk rest)

/-- The fixed built-in module list `STANDARD_MODULES`. -/
def standardModules : List String :=
  ["dcosdeploy.modules.accounts", "dcosdeploy.modules.secrets",
   "dcosdeploy.modules.jobs", "dcosdeploy.modules.apps",
   "dcosdeploy.modules.frameworks", "dcosdeploy.modules.certs",
   "dcosdeploy.modules.repositories", "dcosdeploy.modules.edgelb",
   "dcosdeploy.modules.s3"]

/-- The loop of `_init_modules` over module identifiers.  `importModule` is
the abstract `importlib.import_module`; an import failure propagates
unchanged (the source has no try/except around it). -/
def initModulesCore {δ γ α μ : Type}
    (importModule : String → Except PyError (PyModule δ γ α μ)) :
    List String → List (String × μ) → List (String × EntityModule δ γ α) →
    Except PyError (List (String × μ) × List (String × EntityModule δ γ α))
  | [], managers, modules => .ok (managers, modules)
  | p :: rest, managers, modules =>
    match resolveModulePath p with
    | .error e => .error e
    | .ok modulePath =>
      match importModule modulePath with
      | .error e => .error e
      | .ok m =>
        initModulesCore importModule rest
          (dictSet managers m.configKey m.manager)
          (dictSet modules m.configName ⟨m.parseConfig, m.preprocessConfig⟩)

/-- `dcosdeploy.config._init_modules`. -/
def init_modules {δ γ α μ : Type}
    (importModule : String → Except PyError (PyModule δ γ α μ))
    (additionalModules : List String) :
    Except PyError (List (String × μ) × List (String × EntityModule δ γ α)) :=
  initModulesCore importModule (standardModules ++ additionalModules) [] []

/-! ## Config loader (`read_config`) -/

/-- `config.get("variables", dict())` — only a `variables:` section shaped as
a variable-definition mapping is meaningful there. -/
def varsSectionOf {δ : Type} (doc : List (String × ConfigValue δ)) :
    List (String × VarDef) :=
  match dictLookup doc "variables" with
  | some (ConfigValue.varsSection vs) => vs
  | _ => []

/-- `config.get("includes", list())`. -/
def includesOf {δ : Type} (doc : List (String × ConfigValue δ)) : List String :=
  match dictLookup doc "includes" with
  | some (ConfigValue.includesSection paths) => paths
  | _ => []

/-- `config.get("modules", list())`. -/
def modulesOf {δ : Type} (doc : List (String × ConfigValue δ)) : List String :=
  match dictLookup doc "modules" with
  | some (ConfigValue.modulesSection ms) => ms
  | _ => []

/-- The tail of `read_config` after the variable container has been built:
merge the includes (in list order) into the root document, load the modules
named by the merged config, and process the entity sections.  `includeFiles`
is the abstract file system restricted to `read_yaml` of include paths;
`helperOf` builds the `ConfigHelper` from the container (the base path is
folded into it). -/
def readConfigRest {δ γ α μ : Type} (rootDoc : List (String × ConfigValue δ))
    (includeFiles : String → List (String × ConfigValue δ))
    (importModule : String → Except PyError (PyModule δ γ α μ))
    (helperOf : VariableContainer → γ) (truthy : α → Bool)
    (vars : VariableContainer) :
    Except PyError (List (String × α) × List (String × List (String × α × String))
      × List (String × μ)) :=
  match mergeIncludes rootDoc ((includesOf rootDoc).map (fun p => (p, includeFiles p))) with
  | .error e => .error e
  | .ok config =>
    match init_modules importModule (modulesOf config) with
    | .error e => .error e
    | .ok (managers, modules) =>
      match read_config_entities modules vars (helperOf vars) truthy config with
      | .error e => .error e
      | .ok (objects, graph) => .ok (objects, graph, managers)

/-- `dcosdeploy.config.read_config`, over an abstract file system: the root
document stands for `read_yaml(abspath)`, and the variable container is
computed from the root document's `variables` section and the caller-provided
variables before any include is merged. -/
def read_config {δ γ α μ : Type} (rootDoc : List (String × ConfigValue δ))
    (includeFiles : String → List (String × ConfigValue δ))
    (provided environ : List (String × String))
    (importModule : String → Except PyError (PyModule δ γ α μ))
    (helperOf : VariableContainer → γ) (truthy : α → Bool) :
    Except PyError (List (String × α) × List (String × List (String × α × String))
      × List (String × μ)) :=
  match read_variables (varsSectionOf rootDoc) provided environ with
  | .error e => .error e
  | .ok vars => readConfigRest rootDoc includeFiles importModule helperOf truthy vars

/-! ## Characterization functions

Pure descriptions of what the pipeline records, used to state the theorems
about the dependency graph. -/

/-- Drop the error of an `Except`. -/
def exOk {β : Type} : Except PyError β → Option β
  | .ok b => some b
  | .error _ => none

/-- Among a list of (already preprocessed) entities, the truthy `dependencies`
list of the last entity named `n` that passes its `only`/`except` conditions
and records one — the entry the `deployment_dependencies` dict ends up
holding for `n` after the inner loop. -/
def keptDepsOf {δ : Type} (vars : VariableContainer) (n : String) :
    List (String × EntityConfig δ) → Option (List String)
  | [] => none
  | (m, ec) :: rest =>
    match keptDepsOf vars n rest with
    | some l => some l
    | none =>
      if m == n && !(check_conditions_apply vars ec.only ec.exceptRestriction) then
        truthyDeps ec
      else none

/-- The entities one config section expands to (the preprocessor fan-out, or
the section itself).  For a section whose module lookup would fail the value
is irrelevant (the pipeline errors out); `[]` is returned. -/
def sectionEntities {δ γ α : Type} (modules : List (String × EntityModule δ γ α))
    (helper : γ) (name : String) : ConfigValue δ → List (String × EntityConfig δ)
  | .entity ec =>
    (match dictLookup modules ec.typeName with
     | some m => expandWith m name ec helper
     | none => [])
  | _ => []

/-- The raw dependency list the whole document records under key `n`:
the last non-reserved section (later sections win) whose expansion contains a
kept entity named `n` with a truthy `dependencies` list. -/
def finalDeps {δ γ α : Type} (modules : List (String × EntityModule δ γ α))
    (vars : VariableContainer) (helper : γ) (n : String) :
    List (String × ConfigValue δ) → Option (List String)
  | [] => none
  | (name, v) :: rest =>
    match finalDeps modules vars helper n rest with
    | some l => some l
    | none =>
      if isReservedKey name then none
      else keptDepsOf vars n (sectionEntities modules helper name v)

/-- Two config documents that agree except possibly on the values stored
under the reserved key `variables` — used to state that an included
`variables` section has no effect on a load. -/
inductive RelDoc (δ : Type) :
    List (String × ConfigValue δ) → List (String × ConfigValue δ) → Prop where
  | nil : RelDoc δ [] []
  | consSame (k : String) (v : ConfigValue δ) {t1 t2 : List (String × ConfigValue δ)}
      (h : RelDoc δ t1 t2) : RelDoc δ ((k, v) :: t1) ((k, v) :: t2)
  | consVars (v1 v2 : ConfigValue δ) {t1 t2 : List (String × ConfigValue δ)}
      (h : RelDoc δ t1 t2) :
      RelDoc δ (("variables", v1) :: t1) (("variables", v2) :: t2)

/-! ## Concrete instances used by the examples -/

/-- A trivial entity-type module whose parser returns the entity name. -/
def exampleModule : EntityModule Unit Unit String :=
  ⟨fun n _ _ => n, none⟩

/-- A module table with the single entity type `test`. -/
def exampleModules : List (String × EntityModule Unit Unit String) :=
  [("test", exampleModule)]

/-- A document with an entity `a` that is conditional on `env = prod` and
depends on `b`, and an unconditional entity `b` without dependencies. -/
def exampleConfigSkip : List (String × ConfigValue Unit) :=
  [("a", .entity ⟨"test", [("env", "prod")], [], some ["b"], ()⟩),
   ("b", .entity ⟨"test", [], [], none, ()⟩)]

/-- A document with an unconditional entity `a` depending on `b` (kind
`copy`) and `c` (default kind), plus entities `b` and `c`. -/
def exampleConfigDeps : List (String × ConfigValue Unit) :=
  [("a", .entity ⟨"test", [], [], some ["b:copy", "c"], ()⟩),
   ("b", .entity ⟨"test", [], [], none, ()⟩),
   ("c", .entity ⟨"test", [], [], none, ()⟩)]

/-- An include environment whose documents carry a `variables` section
declaring a required variable without any value. -/
def exampleIncludesA : String → List (String × ConfigValue Unit) :=
  fun _ => [("variables", ConfigValue.varsSection [("x", ⟨none, none, true, none⟩)])]

/-- The same include environment with an empty `variables` section instead. -/
def exampleIncludesB : String → List (String × ConfigValue Unit) :=
  fun _ => [("variables", ConfigValue.varsSection [])]

/-- A root document with one include and no `variables` section of its own. -/
def exampleRootDoc : List (String × ConfigValue Unit) :=
  [("includes", ConfigValue.includesSection ["inc.yml"])]

/-- A trivial loadable Python module for the examples. -/
def examplePyModule : PyModule Unit Unit Unit Unit :=
  ⟨"k", (), "test", fun _ _ _ => (), none⟩

/-! # Helper lemmas -/

theorem dictLookup_dictSet {β : Type} (d : List (String × β)) (k : String) (v : β)
    (k' : String) :
    dictLookup (dictSet d k v) k' = if k = k' then some v else dictLookup d k' := by
  induction d with
  | nil => simp [dictLookup, dictSet]
  | cons a rest ih =>
    obtain ⟨ak, av⟩ := a
    by_cases h1 : ak = k
    · subst h1
      by_cases h2 : ak = k'
      · subst h2; simp [dictLookup, dictSet]
      · simp [dictLookup, dictSet, h2]
    · by_cases h2 : ak = k'
      · subst h2
        have hne : ¬ k = ak := fun hh => h1 hh.symm
        simp [dictLookup, dictSet, h1, hne]
      · simp [dictLookup, dictSet, h1, h2, ih]

/-- Processing the declared variables fails (at the first offending
declaration) whenever some declaration fails its own check: `required` with a
falsy resolved value, or an allow-list the resolved value is not in.  Either
way the error is a `ConfigurationException`. -/
theorem read_variables_core_error_of_bad (provided environ : List (String × String))
    (varDefs : List (String × VarDef)) (name : String) (cfg : VarDef)
    (hmem : (name, cfg) ∈ varDefs)
    (hbad : (pyFalsy (calculate_variable_value name cfg provided environ) && cfg.required
        || valuesViolation cfg (calculate_variable_value name cfg provided environ)) = true) :
    ∃ msg, read_variables_core provided environ varDefs =
      .error (.configurationException msg) := by
  induction varDefs with
  | nil => cases hmem
  | cons hd rest ih =>
    obtain ⟨n0, c0⟩ := hd
    by_cases h1 : (pyFalsy (calculate_variable_value n0 c0 provided environ) && c0.required) = true
    · exact ⟨"Missing required variable " ++ n0, by simp [read_variables_core, h1]⟩
    · by_cases h2 : valuesViolation c0 (calculate_variable_value n0 c0 provided environ) = true
      · exact ⟨valuesErrorMsg n0 (calculate_variable_value n0 c0 provided environ)
            (c0.values.getD []), by simp [read_variables_core, h1, h2]⟩
      · rcases List.mem_cons.mp hmem with heq | htl
        · exfalso
          rw [show n0 = name from congrArg Prod.fst heq.symm,
              show c0 = cfg from congrArg Prod.snd heq.symm] at h1 h2
          rw [Bool.or_eq_true] at hbad
          rcases hbad with hb | hb
          · exact h1 hb
          · exact h2 hb
        · obtain ⟨msg, hmsg⟩ := ih htl
          exact ⟨msg, by simp [read_variables_core, h1, h2, consResult, hmsg]⟩

/-! # Claim theorems -/

/-- Claim C1: for every declared variable, the resolved value follows
first-match-wins precedence — a caller-provided value for the exact name
wins; otherwise the environment variable named by `from` (when present and
non-empty), or the derived name `VAR_` + name with `-` replaced by `_` and
uppercased when `from` is absent; otherwise the declared `default`; otherwise
the value is absent (`None`). -/
theorem c1_variable_precedence (name : String) (cfg : VarDef)
    (provided environ : List (String × String)) :
    (∀ v, dictLookup provided name = some v →
        calculate_variable_value name cfg provided environ = some v)
  ∧ (∀ s, cfg.fromEnv = some s → s.isEmpty = false → envNameOf name cfg = s)
  ∧ (cfg.fromEnv = none → envNameOf name cfg =
        "VAR_" ++ String.mk (name.data.map (fun c => if c = '-' then '_' else c.toUpper)))
  ∧ (dictLookup provided name = none →
        ∀ w, dictLookup environ (envNameOf name cfg) = some w →
        calculate_variable_value name cfg provided environ = some w)
  ∧ (dictLookup provided name = none →
        dictLookup environ (envNameOf name cfg) = none →
        ∀ d, cfg.default = some d →
        calculate_variable_value name cfg provided environ = d)
  ∧ (dictLookup provided name = none →
        dictLookup environ (envNameOf name cfg) = none → cfg.default = none →
        calculate_variable_value name cfg provided environ = none) := by
  have hfun : (fun c => Char.toUpper (if c = '-' then '_' else c)) =
      (fun c => if c = '-' then '_' else c.toUpper) := by
    funext c
    by_cases h : c = '-'
    · subst h; decide
    · simp [h]
  refine ⟨?_, ?_, ?_, ?_, ?_, ?_⟩
  · intro v h; simp [calculate_variable_value, h]
  · intro s hs hemp; simp [envNameOf, hs, hemp]
  · intro h
    simp only [envNameOf, h, derivedEnvName, List.map_map, Function.comp_def, hfun]
  · intro hp w he; simp [calculate_variable_value, hp, he]
  · intro hp he d hd; simp [calculate_variable_value, hp, he, hd]
  · intro hp he hd; simp [calculate_variable_value, hp, he, hd]

/-- Witness for C1 at the spec's concrete example: `region` with
`from: REGION`, `default: us-east`, override `ap-south` and env
`REGION=eu-west` resolves to the override. -/
theorem c1_variable_precedence_witness :
    calculate_variable_value "region" ⟨some "REGION", some (some "us-east"), false, none⟩
      [("region", "ap-south")] [("REGION", "eu-west")] = some "ap-south" :=
  (c1_variable_precedence "region" ⟨some "REGION", some (some "us-east"), false, none⟩
      [("region", "ap-south")] [("REGION", "eu-west")]).1 "ap-south" (by decide)

/-- Claim C5: the condition evaluator returns skip iff some `only` entry has
its variable undeclared or resolved to a different value, or some `except`
entry has its variable declared and equal to the excluded value; with both
maps empty it never skips. -/
theorem c5_condition_evaluator (vars : VariableContainer)
    (o e : List (String × String)) :
    (check_conditions_apply vars o e = true ↔
      (∃ p ∈ o, vars.has p.1 = false ∨ vars.get p.1 ≠ some p.2) ∨
      (∃ p ∈ e, vars.has p.1 = true ∧ vars.get p.1 = some p.2))
  ∧ check_conditions_apply vars [] [] = false := by
  constructor
  · simp [check_conditions_apply, onlyTriggers, exceptTriggers, List.any_eq_true,
      Bool.or_eq_true, Bool.and_eq_true, Bool.not_eq_true', beq_eq_false_iff_ne,
      beq_iff_eq]
  · rfl

/-- Claim C4: a variable declared `required: true` whose computed value is
falsy (absent, or the empty string — which the check cannot tell apart)
makes resolution fail with a `ConfigurationException`; at the declaration
itself the message names the variable. -/
theorem c4_required_variable_enforcement
    (varDefs : List (String × VarDef)) (provided environ : List (String × String)) :
    (∀ name cfg, (name, cfg) ∈ varDefs → cfg.required = true →
        pyFalsy (calculate_variable_value name cfg provided environ) = true →
        ∃ msg, read_variables varDefs provided environ =
          .error (.configurationException msg))
  ∧ (∀ name cfg rest, cfg.required = true →
        pyFalsy (calculate_variable_value name cfg provided environ) = true →
        read_variables_core provided environ ((name, cfg) :: rest) =
          .error (.configurationException ("Missing required variable " ++ name)))
  ∧ pyFalsy (some "") = true := by
  refine ⟨?_, ?_, by decide⟩
  · intro name cfg hmem hreq hfalsy
    obtain ⟨msg, hmsg⟩ := read_variables_core_error_of_bad provided environ varDefs
      name cfg hmem (by simp [hfalsy, hreq])
    exact ⟨msg, by simp [read_variables, hmsg]⟩
  · intro name cfg rest hreq hfalsy
    simp [read_variables_core, hfalsy, hreq]

/-- Witness for C4: a required variable with no override, no env var and no
default fails with the naming message. -/
theorem c4_required_variable_enforcement_witness :
    read_variables_core [] [] [("x", ⟨none, none, true, none⟩)] =
      .error (.configurationException ("Missing required variable " ++ "x")) :=
  (c4_required_variable_enforcement [] [] []).2.1 "x" ⟨none, none, true, none⟩ []
    rfl (by decide)

/-- Claim C8: with a `values` allow-list declared, resolution fails with a
`ConfigurationException` naming the offending value and the allowed set
whenever the resolved value is not a member (the message is
`valuesErrorMsg`, which spells out both), and the allow-list check passes
whenever it is a member. -/
theorem c8_allowed_values_enforcement
    (varDefs : List (String × VarDef)) (provided environ : List (String × String)) :
    (∀ name cfg allowed, (name, cfg) ∈ varDefs → cfg.values = some allowed →
        pyValueMem (calculate_variable_value name cfg provided environ) allowed = false →
        ∃ msg, read_variables varDefs provided environ =
          .error (.configurationException msg))
  ∧ (∀ name cfg allowed rest,
        (pyFalsy (calculate_variable_value name cfg provided environ) && cfg.required) = false →
        cfg.values = some allowed →
        pyValueMem (calculate_variable_value name cfg provided environ) allowed = false →
        read_variables_core provided environ ((name, cfg) :: rest) =
          .error (.configurationException
            (valuesErrorMsg name (calculate_variable_value name cfg provided environ) allowed)))
  ∧ (∀ name cfg allowed rest,
        (pyFalsy (calculate_variable_value name cfg provided environ) && cfg.required) = false →
        cfg.values = some allowed →
        pyValueMem (calculate_variable_value name cfg provided environ) allowed = true →
        read_variables_core provided environ ((name, cfg) :: rest) =
          consResult name (calculate_variable_value name cfg provided environ)
            (read_variables_core provided environ rest)) := by
  refine ⟨?_, ?_, ?_⟩
  · intro name cfg allowed hmem hvals hnm
    obtain ⟨msg, hmsg⟩ := read_variables_core_error_of_bad provided environ varDefs
      name cfg hmem (by simp [valuesViolation, hvals, hnm])
    exact ⟨msg, by simp [read_variables, hmsg]⟩
  · intro name cfg allowed rest hpass hvals hnm
    simp [read_variables_core, hpass, valuesViolation, hvals, hnm]
  · intro name cfg allowed rest hpass hvals hm
    simp [read_variables_core, hpass, valuesViolation, hvals, hm]

/-- Witness for C8 at the spec's concrete example: `values: ["a","b"]` with
resolved value `"c"` fails naming the value and the set. -/
theorem c8_allowed_values_enforcement_witness :
    read_variables_core [] [] [("x", ⟨none, some (some "c"), false, some ["a", "b"]⟩)] =
      .error (.configurationException
        (valuesErrorMsg "x" (some "c") ["a", "b"])) :=
  (c8_allowed_values_enforcement [] [] []).2.1 "x"
    ⟨none, some (some "c"), false, some ["a", "b"]⟩ ["a", "b"] [] (by decide) rfl
    (by decide)

/-- Claim C3: rendering `Hello \x7b\x7bname\x7d\x7d` against a container
mapping `name` to `World` gives `Hello World`; rendering
`Hello \x7b\x7bmissing\x7d\x7d` against an empty container fails with
`ConfigurationException`; and in general `render` fails exactly when the
rendered output still contains an open placeholder marker (a pure
post-condition on the substitution result). -/
theorem c3_template_rendering :
    (VariableContainer.render ⟨[("name", some "World")]⟩ "Hello \x7b\x7bname\x7d\x7d" []
      = .ok "Hello World")
  ∧ (VariableContainer.render ⟨[]⟩ "Hello \x7b\x7bmissing\x7d\x7d" []
      = .error (.configurationException "Unresolved variable"))
  ∧ (∀ (c : VariableContainer) (text : String) (extra : List (String × Option String)),
      isError (c.render text extra) =
        hasOpenMarker (pystacheRender text (mergeDicts c.varMap extra)).data) := by
  refine ⟨rfl, rfl, ?_⟩
  intro c text extra
  by_cases h : hasOpenMarker (pystacheRender text (mergeDicts c.varMap extra)).data = true
  · simp [VariableContainer.render, h, isError]
  · simp [VariableContainer.render, h, isError]

/-- Merging an included document all of whose top-level keys are fresh
appends its items, in order, to the accumulated config. -/
theorem mergeDoc_ok_of_fresh {β : Type} (doc : List (String × β)) :
    ∀ (acc : List (String × β)) (path : String),
    (∀ k, k ∈ doc.map Prod.fst → ¬ k ∈ acc.map Prod.fst) →
    (doc.map Prod.fst).Nodup →
    mergeDoc acc path doc = .ok (acc ++ doc) := by
  induction doc with
  | nil => intro acc path _ _; simp [mergeDoc]
  | cons hd rest ih =>
    intro acc path hfresh hnodup
    obtain ⟨k, v⟩ := hd
    have hk : ¬ k ∈ acc.map Prod.fst := hfresh k (by simp)
    rw [List.map_cons] at hnodup
    have hnd := List.nodup_cons.mp hnodup
    have hres : mergeDoc (acc ++ [(k, v)]) path rest = .ok ((acc ++ [(k, v)]) ++ rest) := by
      apply ih
      · intro k2 hk2
        simp only [List.map_append, List.mem_append]
        rintro (hin | hin)
        · exact hfresh k2 (by simp [hk2]) hin
        · rw [show (List.map Prod.fst [(k, v)]) = [k] from rfl,
            List.mem_singleton] at hin
          exact hnd.1 (hin ▸ hk2)
      · exact hnd.2
    rw [show mergeDoc acc path ((k, v) :: rest) =
        (if k ∈ acc.map Prod.fst then
          .error (.configurationException
            (k ++ " found in base config and include file " ++ path))
         else mergeDoc (acc ++ [(k, v)]) path rest) from rfl,
      if_neg hk, hres]
    simp

/-- A top-level key collision between an included document and the
accumulated config makes the merge fail with the naming
`ConfigurationException`. -/
theorem mergeDoc_error_of_collision {β : Type} (doc : List (String × β)) :
    ∀ (acc : List (String × β)) (path : String) (k : String),
    k ∈ doc.map Prod.fst → k ∈ acc.map Prod.fst → (doc.map Prod.fst).Nodup →
    ∃ kk, kk ∈ doc.map Prod.fst ∧ kk ∈ acc.map Prod.fst ∧
      mergeDoc acc path doc = .error (.configurationException
        (kk ++ " found in base config and include file " ++ path)) := by
  induction doc with
  | nil => intro acc path k hk _ _; simp at hk
  | cons hd rest ih =>
    intro acc path k hkdoc hkacc hnodup
    obtain ⟨k0, v0⟩ := hd
    have hunfold : mergeDoc acc path ((k0, v0) :: rest) =
        (if k0 ∈ acc.map Prod.fst then
          .error (.configurationException
            (k0 ++ " found in base config and include file " ++ path))
         else mergeDoc (acc ++ [(k0, v0)]) path rest) := rfl
    rw [List.map_cons] at hkdoc hnodup
    by_cases h0 : k0 ∈ acc.map Prod.fst
    · exact ⟨k0, by simp, h0, by rw [hunfold, if_pos h0]⟩
    · have hkne : k ≠ k0 := fun h => h0 (h ▸ hkacc)
      have hkrest : k ∈ rest.map Prod.fst := by
        rcases List.mem_cons.mp hkdoc with h | h
        · exact absurd h hkne
        · exact h
      have hnd := List.nodup_cons.mp hnodup
      obtain ⟨kk, hkk1, hkk2, hkk3⟩ :=
        ih (acc ++ [(k0, v0)]) path k hkrest (by simp [hkacc]) hnd.2
      refine ⟨kk, by simp [hkk1], ?_, by rw [hunfold, if_neg h0, hkk3]⟩
      have hkkne : kk ≠ k0 := fun h => hnd.1 (h ▸ hkk1)
      simp only [List.map_append, List.mem_append] at hkk2
      rcases hkk2 with hin | hin
      · exact hin
      · rw [show (List.map Prod.fst [(k0, v0)]) = [k0] from rfl,
          List.mem_singleton] at hin
        exact absurd hin hkkne

/-- Claim C7: included documents are merged shallowly (top-level keys only)
into the accumulated config in list order, and whenever an included document
declares a top-level key already present in the accumulated config the merge
fails with a `ConfigurationException` naming the colliding key and the
include path. -/
theorem c7_include_merge {β : Type} (acc : List (String × β)) (path : String)
    (doc : List (String × β)) (incs : List (String × List (String × β))) :
    (mergeIncludes acc ((path, doc) :: incs) =
      (match mergeDoc acc path doc with
       | .error e => .error e
       | .ok acc2 => mergeIncludes acc2 incs))
  ∧ ((acc.map Prod.fst ++ (incs.map (fun pr => pr.2.map Prod.fst)).flatten).Nodup →
      mergeIncludes acc incs = .ok (acc ++ (incs.map Prod.snd).flatten))
  ∧ (∀ k, k ∈ doc.map Prod.fst → k ∈ acc.map Prod.fst → (doc.map Prod.fst).Nodup →
      ∃ kk, kk ∈ doc.map Prod.fst ∧ kk ∈ acc.map Prod.fst ∧
        mergeDoc acc path doc = .error (.configurationException
          (kk ++ " found in base config and include file " ++ path))) := by
  refine ⟨rfl, ?_, mergeDoc_error_of_collision doc acc path⟩
  clear path doc
  induction incs generalizing acc with
  | nil => intro _; simp [mergeIncludes]
  | cons hd rest ih =>
    intro hnd
    obtain ⟨p, d⟩ := hd
    simp only [List.map_cons, List.flatten_cons] at hnd
    have h1 := List.nodup_append.mp hnd
    have h2 := List.nodup_append.mp h1.2.1
    have hmd : mergeDoc acc p d = .ok (acc ++ d) := by
      apply mergeDoc_ok_of_fresh
      · intro k hk hmem
        exact h1.2.2 hmem (List.mem_append_left _ hk)
      · exact h2.1
    have hnd2 : ((acc ++ d).map Prod.fst ++
        (rest.map (fun pr => pr.2.map Prod.fst)).flatten).Nodup := by
      simpa [List.map_append, List.append_assoc] using hnd
    have hrest := ih (acc ++ d) hnd2
    simp [mergeIncludes, hmd, hrest, List.append_assoc]

/-- Witness for C7 at the spec's concrete example: two documents both
declaring top-level key `jobs` collide and the error names the key and the
include path. -/
theorem c7_include_merge_witness :
    mergeDoc [("jobs", (0 : Nat))] "inc.yml" [("jobs", 1)] =
      .error (.configurationException
        ("jobs" ++ " found in base config and include file " ++ "inc.yml")) := by
  obtain ⟨kk, hkk1, hkk2, hkk3⟩ :=
    (c7_include_merge [("jobs", (0 : Nat))] "inc.yml" [("jobs", 1)] []).2.2 "jobs"
      (by decide) (by decide) (by decide)
  have : kk = "jobs" := by simpa using hkk1
  subst this
  exact hkk3

/-- `rsplitColonCore` finds nothing exactly on colon-free input — the
`dependency.count(":") > 0` test of `_build_dependency_tree`. -/
theorem rsplitColonCore_eq_none {l : List Char} :
    rsplitColonCore l = none ↔ ':' ∉ l := by
  induction l with
  | nil => simp [rsplitColonCore]
  | cons c rest ih =>
    cases h : rsplitColonCore rest with
    | some p =>
      simp only [rsplitColonCore, h]
      constructor
      · intro hc; cases hc
      · intro hc
        exfalso
        have : ':' ∉ rest := fun hm => by simp [hm] at hc
        rw [← ih] at this
        rw [h] at this
        cases this
    | none =>
      simp only [rsplitColonCore, h]
      by_cases hc : c = ':'
      · subst hc; simp
      · simp [hc, ih.mp h, Ne.symm hc]

/-- Splitting at the last colon: appending a colon-free tail after a colon
splits exactly there. -/
theorem rsplitColonCore_append {b : List Char} (hb : ':' ∉ b) :
    ∀ a : List Char, rsplitColonCore (a ++ ':' :: b) = some (a, b) := by
  intro a
  induction a with
  | nil =>
    simp [rsplitColonCore, rsplitColonCore_eq_none.mpr hb]
  | cons c a2 ih =>
    simp [rsplitColonCore, ih]

/-- Claim C6: the graph builder splits each raw dependency string on the last
colon (`db:create` gives name `db` and kind `create`), a colon-free string
gets the default kind `create`, and a dependency whose name portion is absent
from the deployment objects fails the whole build. -/
theorem c6_dependency_resolution {α : Type} :
    (splitDependency "db:create" = ("db", "create"))
  ∧ (splitDependency "db" = ("db", "create"))
  ∧ (∀ pre post : List Char, ':' ∉ post →
      splitDependency (String.mk (pre ++ ':' :: post)) = (String.mk pre, String.mk post))
  ∧ (∀ s : String, ':' ∉ s.data → splitDependency s = (s, "create"))
  ∧ (∀ (truthy : α → Bool) (depsMap : List (String × List String))
        (objects : List (String × α)) (name : String) (sdeps : List String)
        (d : String),
      (name, sdeps) ∈ depsMap → d ∈ sdeps →
      dictLookup objects (splitDependency d).1 = none →
      ∃ e, build_dependency_tree truthy depsMap objects = .error e) := by
  refine ⟨by decide, by decide, ?_, ?_, ?_⟩
  · intro pre post hpost
    simp [splitDependency, rsplitColonCore_append hpost]
  · intro s hs
    simp [splitDependency, rsplitColonCore_eq_none.mpr hs]
  · intro truthy depsMap objects name sdeps d hentry hd hnone
    have hres : ∃ e, resolveDeps truthy sdeps objects = .error e := by
      clear hentry
      induction sdeps with
      | nil => cases hd
      | cons d0 rest ih =>
        rcases List.mem_cons.mp hd with heq | htl
        · subst heq
          refine ⟨.genericException ("Could not find " ++ (splitDependency d).1), ?_⟩
          simp [resolveDeps, hnone]
        · cases h0 : dictLookup objects (splitDependency d0).1 with
          | none =>
            refine ⟨.genericException ("Could not find " ++ (splitDependency d0).1), ?_⟩
            simp [resolveDeps, h0]
          | some o =>
            obtain ⟨e, he⟩ := ih htl
            by_cases ht : truthy o = true
            · exact ⟨e, by simp [resolveDeps, h0, ht, he]⟩
            · refine ⟨.genericException ("Could not find " ++ (splitDependency d0).1), ?_⟩
              simp [resolveDeps, h0, ht]
    clear hd hnone
    induction depsMap with
    | nil => cases hentry
    | cons hd2 rest ih =>
      obtain ⟨n0, s0⟩ := hd2
      cases h0 : resolveDeps truthy s0 objects with
      | error e => exact ⟨e, by simp [build_dependency_tree, h0]⟩
      | ok l =>
        rcases List.mem_cons.mp hentry with heq | htl
        · exfalso
          obtain ⟨e, he⟩ := hres
          rw [show s0 = sdeps from congrArg Prod.snd heq.symm] at h0
          rw [he] at h0
          cases h0
        · obtain ⟨e, he⟩ := ih htl
          exact ⟨e, by simp [build_dependency_tree, h0, he]⟩

/-- Witness for C6: a dependency on the absent name `b` makes the whole build
fail. -/
theorem c6_dependency_resolution_witness :
    isError (build_dependency_tree (fun (_ : Nat) => true) [("a", ["b"])] [("a", 0)])
      = true := by
  obtain ⟨e, he⟩ := (c6_dependency_resolution (α := Nat)).2.2.2.2 (fun _ => true)
    [("a", ["b"])] [("a", 0)] "a" ["b"] "b" (by decide) (by decide) (by decide)
  rw [he]
  rfl

/-- The `match o with some then some, none then none` identity. -/
theorem option_match_id {β : Type} (o : Option β) :
    (match o with | some l => some l | none => none) = o := by
  cases o <;> rfl

/-- What the inner entity loop records under key `n` in the
`deployment_dependencies` dict: the last kept entity named `n` with a truthy
`dependencies` list wins; otherwise the dict is untouched at `n`. -/
theorem processExpanded_deps {δ γ α : Type} (vars : VariableContainer)
    (parse : String → EntityConfig δ → γ → α) (helper : γ) :
    ∀ (entities : List (String × EntityConfig δ)) (objects : List (String × α))
      (deps : List (String × List String)) (n : String),
    dictLookup (processExpanded vars parse helper entities objects deps).2 n =
      (match keptDepsOf vars n entities with
       | some l => some l
       | none => dictLookup deps n) := by
  intro entities
  induction entities with
  | nil => intro objects deps n; rfl
  | cons hd rest ih =>
    intro objects deps n
    obtain ⟨m, ec⟩ := hd
    by_cases hskip : check_conditions_apply vars ec.only ec.exceptRestriction = true
    · have hkept : keptDepsOf vars n ((m, ec) :: rest) = keptDepsOf vars n rest := by
        cases hk : keptDepsOf vars n rest <;> simp [keptDepsOf, hk, hskip]
      rw [show processExpanded vars parse helper ((m, ec) :: rest) objects deps =
          processExpanded vars parse helper rest objects deps from by
            simp [processExpanded, hskip]]
      rw [ih, hkept]
    · have hstep : processExpanded vars parse helper ((m, ec) :: rest) objects deps =
          processExpanded vars parse helper rest
            (dictSet objects m (parse m ec helper))
            (match truthyDeps ec with
             | some l => dictSet deps m l
             | none => deps) := by
        simp [processExpanded, hskip]
      rw [hstep, ih]
      cases hk : keptDepsOf vars n rest with
      | some l => simp [keptDepsOf, hk]
      | none =>
        by_cases hmn : m = n
        · subst hmn
          cases htd : truthyDeps ec with
          | some l =>
            simp [keptDepsOf, hk, hskip, htd, dictLookup_dictSet]
          | none =>
            simp [keptDepsOf, hk, hskip, htd]
        · cases htd : truthyDeps ec with
          | some l =>
            simp [keptDepsOf, hk, hskip, htd, hmn, dictLookup_dictSet]
          | none =>
            simp [keptDepsOf, hk, hskip, htd, hmn]

/-- What the whole section loop records under key `n`: the `finalDeps`
characterization (later sections win; reserved keys record nothing). -/
theorem processEntities_deps {δ γ α : Type} (modules : List (String × EntityModule δ γ α))
    (vars : VariableContainer) (helper : γ) :
    ∀ (config : List (String × ConfigValue δ)) (objects : List (String × α))
      (deps : List (String × List String))
      (res : List (String × α) × List (String × List String)),
    processEntities modules vars helper config objects deps = .ok res →
    ∀ n, dictLookup res.2 n =
      (match finalDeps modules vars helper n config with
       | some l => some l
       | none => dictLookup deps n) := by
  intro config
  induction config with
  | nil =>
    intro objects deps res h n
    cases h
    rfl
  | cons hd rest ih =>
    intro objects deps res h n
    obtain ⟨name, v⟩ := hd
    by_cases hres : isReservedKey name = true
    · rw [show processEntities modules vars helper ((name, v) :: rest) objects deps =
           processEntities modules vars helper rest objects deps from by
             simp [processEntities, hres]] at h
      rw [ih _ _ _ h n]
      have hfd : finalDeps modules vars helper n ((name, v) :: rest) =
          finalDeps modules vars helper n rest := by
        cases hf : finalDeps modules vars helper n rest <;> simp [finalDeps, hf, hres]
      rw [hfd]
    · cases v with
      | varsSection vs =>
        rw [show processEntities modules vars helper ((name, .varsSection vs) :: rest)
              objects deps = .error (.typeError "entity section is not a mapping") from by
            simp [processEntities, hres]] at h
        cases h
      | modulesSection ms =>
        rw [show processEntities modules vars helper ((name, .modulesSection ms) :: rest)
              objects deps = .error (.typeError "entity section is not a mapping") from by
            simp [processEntities, hres]] at h
        cases h
      | includesSection ps =>
        rw [show processEntities modules vars helper ((name, .includesSection ps) :: rest)
              objects deps = .error (.typeError "entity section is not a mapping") from by
            simp [processEntities, hres]] at h
        cases h
      | entity ec =>
        cases hm : dictLookup modules ec.typeName with
        | none =>
          rw [show processEntities modules vars helper ((name, .entity ec) :: rest)
                objects deps = .error (.keyError ec.typeName) from by
              simp [processEntities, hres, hm]] at h
          cases h
        | some m =>
          rw [show processEntities modules vars helper ((name, .entity ec) :: rest)
                objects deps =
              processEntities modules vars helper rest
                (processExpanded vars m.parseConfig helper
                  (expandWith m name ec helper) objects deps).1
                (processExpanded vars m.parseConfig helper
                  (expandWith m name ec helper) objects deps).2 from by
              simp [processEntities, hres, hm]] at h
          rw [ih _ _ _ h n, processExpanded_deps]
          have hsec : sectionEntities modules helper name (.entity ec) =
              expandWith m name ec helper := by
            simp [sectionEntities, hm]
          cases hf : finalDeps modules vars helper n rest with
          | some l => simp [finalDeps, hf]
          | none => simp [finalDeps, hf, hres, hsec]

/-- The graph returned by `_build_dependency_tree` has exactly the keys of the
recorded dependencies dict, each mapped to its resolved entry. -/
theorem build_dependency_tree_lookup {α : Type} (truthy : α → Bool)
    (objects : List (String × α)) :
    ∀ (depsMap : List (String × List String))
      (g : List (String × List (String × α × String))),
    build_dependency_tree truthy depsMap objects = .ok g →
    ∀ n, dictLookup g n =
      (match dictLookup depsMap n with
       | some sdeps => exOk (resolveDeps truthy sdeps objects)
       | none => none) := by
  intro depsMap
  induction depsMap with
  | nil => intro g h n; cases h; rfl
  | cons hd rest ih =>
    intro g h n
    obtain ⟨n0, s0⟩ := hd
    cases h0 : resolveDeps truthy s0 objects with
    | error e => simp [build_dependency_tree, h0] at h
    | ok l =>
      cases h1 : build_dependency_tree truthy rest objects with
      | error e => simp [build_dependency_tree, h0, h1] at h
      | ok g2 =>
        simp only [build_dependency_tree, h0, h1] at h
        cases h
        by_cases hn : n0 = n
        · subst hn
          simp [dictLookup, h0, exOk]
        · simp [dictLookup, hn, ih g2 h1 n]

/-- Every entry of a dict that `_build_dependency_tree` accepted has a
successfully resolved dependency list. -/
theorem build_dependency_tree_ok_entries {α : Type} (truthy : α → Bool)
    (objects : List (String × α)) :
    ∀ (depsMap : List (String × List String))
      (g : List (String × List (String × α × String))),
    build_dependency_tree truthy depsMap objects = .ok g →
    ∀ n sdeps, dictLookup depsMap n = some sdeps →
    ∃ l, resolveDeps truthy sdeps objects = .ok l := by
  intro depsMap
  induction depsMap with
  | nil => intro g _ n sdeps hl; cases hl
  | cons hd rest ih =>
    intro g h n sdeps hl
    obtain ⟨n0, s0⟩ := hd
    cases h0 : resolveDeps truthy s0 objects with
    | error e => simp [build_dependency_tree, h0] at h
    | ok l =>
      cases h1 : build_dependency_tree truthy rest objects with
      | error e => simp [build_dependency_tree, h0, h1] at h
      | ok g2 =>
        by_cases hn : n0 = n
        · subst hn
          rw [show dictLookup ((n0, s0) :: rest) n0 = some s0 from by
            simp [dictLookup]] at hl
          cases hl
          exact ⟨l, h0⟩
        · rw [show dictLookup ((n0, s0) :: rest) n = dictLookup rest n from by
            simp [dictLookup, hn]] at hl
          exact ih g2 h1 n sdeps hl

/-- A successfully resolved dependency list maps the raw strings pointwise, in
order: the i-th triple is the i-th raw string split into name and kind and
looked up among the deployment objects. -/
theorem resolveDeps_shape {α : Type} (truthy : α → Bool)
    (objects : List (String × α)) :
    ∀ (sdeps : List String) (l : List (String × α × String)),
    resolveDeps truthy sdeps objects = .ok l →
    ∀ i, l.get? i = (sdeps.get? i).bind (fun d =>
      (dictLookup objects (splitDependency d).1).map
        (fun o => ((splitDependency d).1, o, (splitDependency d).2))) := by
  intro sdeps
  induction sdeps with
  | nil => intro l h i; cases h; cases i <;> rfl
  | cons d0 rest ih =>
    intro l h i
    cases h0 : dictLookup objects (splitDependency d0).1 with
    | none => simp [resolveDeps, h0] at h
    | some o =>
      by_cases ht : truthy o = true
      · cases hrec : resolveDeps truthy rest objects with
        | error e => simp [resolveDeps, h0, ht, hrec] at h
        | ok l2 =>
          simp only [resolveDeps, h0, ht, hrec, if_true] at h
          cases h
          cases i with
          | zero => simp [h0]
          | succ j => simpa using ih l2 hrec j
      · simp [resolveDeps, h0, ht] at h

/-- Claim C9 (amended): in a successful load, the dependency graph has a key
`n` exactly when some post-preprocessing entity named `n` passed its
`only`/`except` conditions and declared a non-empty `dependencies` list (the
last such entity wins, matching dict-overwrite semantics); its entry is that
list resolved pointwise — in declared order — to
`(target_name, target_object, relation_kind)` triples; entities recording no
truthy dependencies list (absent, empty, or skipped) are absent from the
graph rather than present with an empty list. -/
theorem c9_dependency_graph {δ γ α : Type}
    (modules : List (String × EntityModule δ γ α)) (vars : VariableContainer)
    (helper : γ) (truthy : α → Bool) (config : List (String × ConfigValue δ))
    (objects : List (String × α)) (graph : List (String × List (String × α × String)))
    (h : read_config_entities modules vars helper truthy config = .ok (objects, graph)) :
    ∀ n,
      (dictLookup graph n =
        (match finalDeps modules vars helper n config with
         | some sdeps => exOk (resolveDeps truthy sdeps objects)
         | none => none))
    ∧ (∀ sdeps, finalDeps modules vars helper n config = some sdeps →
        ∃ l, resolveDeps truthy sdeps objects = .ok l)
    ∧ (∀ l sdeps, dictLookup graph n = some l →
        finalDeps modules vars helper n config = some sdeps →
        ∀ i, l.get? i = (sdeps.get? i).bind (fun d =>
          (dictLookup objects (splitDependency d).1).map
            (fun o => ((splitDependency d).1, o, (splitDependency d).2)))) := by
  unfold read_config_entities at h
  cases hp : processEntities modules vars helper config [] [] with
  | error e => rw [hp] at h; cases h
  | ok pr =>
    rw [hp] at h
    obtain ⟨objects0, depsMap⟩ := pr
    dsimp only at h
    cases hb : build_dependency_tree truthy depsMap objects0 with
    | error e => rw [hb] at h; cases h
    | ok graph2 =>
      rw [hb] at h
      dsimp only at h
      injection h with hpair
      have hobj : objects0 = objects := congrArg Prod.fst hpair
      have hgr : graph2 = graph := congrArg Prod.snd hpair
      subst hobj
      subst hgr
      have hdm : ∀ n', dictLookup depsMap n' = finalDeps modules vars helper n' config := by
        intro n'
        have h2 := processEntities_deps modules vars helper config [] []
          (objects0, depsMap) hp n'
        rcases hf : finalDeps modules vars helper n' config with _ | l <;>
          rw [hf] at h2 <;> simpa [dictLookup] using h2
      intro n
      have hc1 : dictLookup graph2 n =
          (match finalDeps modules vars helper n config with
           | some sdeps => exOk (resolveDeps truthy sdeps objects0)
           | none => none) := by
        rw [build_dependency_tree_lookup truthy objects0 depsMap graph2 hb n, hdm n]
      refine ⟨hc1, ?_, ?_⟩
      · intro sdeps hsd
        exact build_dependency_tree_ok_entries truthy objects0 depsMap graph2 hb n sdeps
          ((hdm n).trans hsd)
      · intro l sdeps hg hsd i
        rw [hc1, hsd] at hg
        dsimp only at hg
        cases hr : resolveDeps truthy sdeps objects0 with
        | error e => rw [hr] at hg; cases hg
        | ok l2 =>
          rw [hr] at hg
          have : l2 = l := by
            have := hg
            simp [exOk] at this
            exact this
          subst this
          exact resolveDeps_shape truthy objects0 sdeps l2 hr i

/-- Claim C9 counterexample: entity `a` declares the non-empty dependencies
list `["b"]`, yet the graph of the (successful) load has no key `a`, because
`a` is skipped by its `only` condition — `env` is undeclared.  The claimed
"key present iff the entity's config declared a non-empty dependencies list"
equivalence is therefore false as stated. -/
theorem c9_dependency_graph_counterexample :
    read_config_entities exampleModules ⟨[]⟩ () (fun _ => true) exampleConfigSkip =
      .ok ([("b", "b")], [])
  ∧ (match dictLookup exampleConfigSkip "a" with
     | some (.entity ec) => ec.dependencies
     | _ => none) = some ["b"]
  ∧ dictLookup ([] : List (String × List (String × String × String))) "a" = none :=
  ⟨rfl, rfl, rfl⟩

/-- Witness for C9 (amended), on a load where `a` survives with dependencies
`b:copy` and `c`: the graph entry under `a` is the characterized resolution. -/
theorem c9_dependency_graph_witness :
    dictLookup [("a", [("b", "b", "copy"), ("c", "c", "create")])] "a" =
      (match finalDeps exampleModules ⟨[]⟩ () "a" exampleConfigDeps with
       | some sdeps => exOk (resolveDeps (fun _ => true) sdeps
           [("a", "a"), ("b", "b"), ("c", "c")])
       | none => none) :=
  (c9_dependency_graph exampleModules ⟨[]⟩ () (fun _ => true) exampleConfigDeps
    [("a", "a"), ("b", "b"), ("c", "c")]
    [("a", [("b", "b", "copy"), ("c", "c", "create")])] rfl "a").1

/-- Every error escaping the declared-variable loop is a
`ConfigurationException`. -/
theorem read_variables_core_error_kind (provided environ : List (String × String)) :
    ∀ (varDefs : List (String × VarDef)) (e : PyError),
    read_variables_core provided environ varDefs = .error e →
    isConfigurationException e = true := by
  intro varDefs
  induction varDefs with
  | nil => intro e h; cases h
  | cons hd rest ih =>
    intro e h
    obtain ⟨n0, c0⟩ := hd
    by_cases h1 : (pyFalsy (calculate_variable_value n0 c0 provided environ)
        && c0.required) = true
    · rw [show read_variables_core provided environ ((n0, c0) :: rest) =
          .error (.configurationException ("Missing required variable " ++ n0)) from by
        simp [read_variables_core, h1]] at h
      injection h with h2
      rw [← h2]
      rfl
    · by_cases h2 : valuesViolation c0 (calculate_variable_value n0 c0 provided environ) = true
      · rw [show read_variables_core provided environ ((n0, c0) :: rest) =
            .error (.configurationException
              (valuesErrorMsg n0 (calculate_variable_value n0 c0 provided environ)
                (c0.values.getD []))) from by
          simp [read_variables_core, h1, h2]] at h
        injection h with h3
        rw [← h3]
        rfl
      · rw [show read_variables_core provided environ ((n0, c0) :: rest) =
            consResult n0 (calculate_variable_value n0 c0 provided environ)
              (read_variables_core provided environ rest) from by
          simp [read_variables_core, h1, h2]] at h
        cases hc : read_variables_core provided environ rest with
        | error e2 =>
          rw [hc] at h
          injection h with h3
          exact h3 ▸ ih e2 hc
        | ok res =>
          rw [hc] at h
          cases h

/-- Every error escaping `_read_variables` is a `ConfigurationException`. -/
theorem read_variables_error_kind (varDefs : List (String × VarDef))
    (provided environ : List (String × String)) (e : PyError)
    (h : read_variables varDefs provided environ = .error e) :
    isConfigurationException e = true := by
  unfold read_variables at h
  cases hc : read_variables_core provided environ varDefs with
  | error e2 =>
    rw [hc] at h
    injection h with h2
    exact h2 ▸ read_variables_core_error_kind provided environ varDefs e2 hc
  | ok res => rw [hc] at h; cases h

/-- The only error `render` can raise is the unresolved-placeholder
`ConfigurationException`. -/
theorem render_error_kind (c : VariableContainer) (text : String)
    (extra : List (String × Option String)) (e : PyError)
    (h : c.render text extra = .error e) :
    e = .configurationException "Unresolved variable" := by
  by_cases hm : hasOpenMarker (pystacheRender text (mergeDicts c.varMap extra)).data = true
  · rw [show c.render text extra =
        .error (.configurationException "Unresolved variable") from by
      simp [VariableContainer.render, hm]] at h
    injection h with h2
    exact h2.symm
  · rw [show c.render text extra =
        .ok (pystacheRender text (mergeDicts c.varMap extra)) from by
      simp [VariableContainer.render, hm]] at h
    cases h

/-- Every error escaping the single-document include merge is a
`ConfigurationException`. -/
theorem mergeDoc_error_kind {β : Type} :
    ∀ (doc acc : List (String × β)) (path : String) (e : PyError),
    mergeDoc acc path doc = .error e → isConfigurationException e = true := by
  intro doc
  induction doc with
  | nil => intro acc path e h; cases h
  | cons hd rest ih =>
    intro acc path e h
    obtain ⟨k0, v0⟩ := hd
    by_cases h0 : k0 ∈ acc.map Prod.fst
    · rw [show mergeDoc acc path ((k0, v0) :: rest) =
          .error (.configurationException
            (k0 ++ " found in base config and include file " ++ path)) from by
        rw [show mergeDoc acc path ((k0, v0) :: rest) =
            (if k0 ∈ acc.map Prod.fst then
              .error (.configurationException
                (k0 ++ " found in base config and include file " ++ path))
             else mergeDoc (acc ++ [(k0, v0)]) path rest) from rfl, if_pos h0]] at h
      injection h with h2
      rw [← h2]
      rfl
    · rw [show mergeDoc acc path ((k0, v0) :: rest) =
          mergeDoc (acc ++ [(k0, v0)]) path rest from by
        rw [show mergeDoc acc path ((k0, v0) :: rest) =
            (if k0 ∈ acc.map Prod.fst then
              .error (.configurationException
                (k0 ++ " found in base config and include file " ++ path))
             else mergeDoc (acc ++ [(k0, v0)]) path rest) from rfl, if_neg h0]] at h
      exact ih (acc ++ [(k0, v0)]) path e h

/-- Every error escaping the include-merge loop is a
`ConfigurationException`. -/
theorem mergeIncludes_error_kind {β : Type} :
    ∀ (incs : List (String × List (String × β))) (acc : List (String × β)) (e : PyError),
    mergeIncludes acc incs = .error e → isConfigurationException e = true := by
  intro incs
  induction incs with
  | nil => intro acc e h; cases h
  | cons hd rest ih =>
    intro acc e h
    obtain ⟨p, d⟩ := hd
    cases hm : mergeDoc acc p d with
    | error e2 =>
      rw [show mergeIncludes acc ((p, d) :: rest) =
          (match mergeDoc acc p d with
           | .error e3 => .error e3
           | .ok acc2 => mergeIncludes acc2 rest) from rfl, hm] at h
      injection h with h2
      exact h2 ▸ mergeDoc_error_kind d acc p e2 hm
    | ok acc2 =>
      rw [show mergeIncludes acc ((p, d) :: rest) =
          (match mergeDoc acc p d with
           | .error e3 => .error e3
           | .ok acc3 => mergeIncludes acc3 rest) from rfl, hm] at h
      exact ih acc2 e h

/-- No error escaping the entity pipeline is a `ConfigurationException`: an
unknown entity `type` raises a `KeyError` and a non-mapping section a
`TypeError`. -/
theorem processEntities_error_kind {δ γ α : Type}
    (modules : List (String × EntityModule δ γ α)) (vars : VariableContainer)
    (helper : γ) :
    ∀ (config : List (String × ConfigValue δ)) (objects : List (String × α))
      (deps : List (String × List String)) (e : PyError),
    processEntities modules vars helper config objects deps = .error e →
    isConfigurationException e = false := by
  intro config
  induction config with
  | nil => intro objects deps e h; cases h
  | cons hd rest ih =>
    intro objects deps e h
    obtain ⟨name, v⟩ := hd
    by_cases hres : isReservedKey name = true
    · rw [show processEntities modules vars helper ((name, v) :: rest) objects deps =
          processEntities modules vars helper rest objects deps from by
        simp [processEntities, hres]] at h
      exact ih objects deps e h
    · cases v with
      | varsSection vs =>
        rw [show processEntities modules vars helper ((name, .varsSection vs) :: rest)
              objects deps = .error (.typeError "entity section is not a mapping") from by
          simp [processEntities, hres]] at h
        injection h with h2
        rw [← h2]
        rfl
      | modulesSection ms =>
        rw [show processEntities modules vars helper ((name, .modulesSection ms) :: rest)
              objects deps = .error (.typeError "entity section is not a mapping") from by
          simp [processEntities, hres]] at h
        injection h with h2
        rw [← h2]
        rfl
      | includesSection ps =>
        rw [show processEntities modules vars helper ((name, .includesSection ps) :: rest)
              objects deps = .error (.typeError "entity section is not a mapping") from by
          simp [processEntities, hres]] at h
        injection h with h2
        rw [← h2]
        rfl
      | entity ec =>
        cases hm : dictLookup modules ec.typeName with
        | none =>
          rw [show processEntities modules vars helper ((name, .entity ec) :: rest)
                objects deps = .error (.keyError ec.typeName) from by
            simp [processEntities, hres, hm]] at h
          injection h with h2
          rw [← h2]
          rfl
        | some m =>
          rw [show processEntities modules vars helper ((name, .entity ec) :: rest)
                objects deps =
              processEntities modules vars helper rest
                (processExpanded vars m.parseConfig helper
                  (expandWith m name ec helper) objects deps).1
                (processExpanded vars m.parseConfig helper
                  (expandWith m name ec helper) objects deps).2 from by
            simp [processEntities, hres, hm]] at h
          exact ih _ _ e h

/-- Every error escaping dependency resolution is the plain
`Exception("Could not find ...")`. -/
theorem resolveDeps_error_kind {α : Type} (truthy : α → Bool)
    (objects : List (String × α)) :
    ∀ (sdeps : List String) (e : PyError),
    resolveDeps truthy sdeps objects = .error e →
    ∃ d, e = .genericException ("Could not find " ++ d) := by
  intro sdeps
  induction sdeps with
  | nil => intro e h; cases h
  | cons d0 rest ih =>
    intro e h
    cases h0 : dictLookup objects (splitDependency d0).1 with
    | none =>
      rw [show resolveDeps truthy (d0 :: rest) objects =
          .error (.genericException ("Could not find " ++ (splitDependency d0).1)) from by
        simp [resolveDeps, h0]] at h
      injection h with h2
      exact ⟨(splitDependency d0).1, h2.symm⟩
    | some o =>
      by_cases ht : truthy o = true
      · cases hrec : resolveDeps truthy rest objects with
        | error e2 =>
          rw [show resolveDeps truthy (d0 :: rest) objects = .error e2 from by
            simp [resolveDeps, h0, ht, hrec]] at h
          injection h with h2
          exact h2 ▸ ih e2 hrec
        | ok l =>
          rw [show resolveDeps truthy (d0 :: rest) objects =
              .ok (((splitDependency d0).1, o, (splitDependency d0).2) :: l) from by
            simp [resolveDeps, h0, ht, hrec]] at h
          cases h
      · rw [show resolveDeps truthy (d0 :: rest) objects =
            .error (.genericException ("Could not find " ++ (splitDependency d0).1)) from by
          simp [resolveDeps, h0, ht]] at h
        injection h with h2
        exact ⟨(splitDependency d0).1, h2.symm⟩

/-- Every error escaping `_build_dependency_tree` is the plain
`Exception("Could not find ...")`. -/
theorem build_dependency_tree_error_kind {α : Type} (truthy : α → Bool)
    (objects : List (String × α)) :
    ∀ (depsMap : List (String × List String)) (e : PyError),
    build_dependency_tree truthy depsMap objects = .error e →
    ∃ d, e = .genericException ("Could not find " ++ d) := by
  intro depsMap
  induction depsMap with
  | nil => intro e h; cases h
  | cons hd rest ih =>
    intro e h
    obtain ⟨n0, s0⟩ := hd
    cases h0 : resolveDeps truthy s0 objects with
    | error e2 =>
      rw [show build_dependency_tree truthy ((n0, s0) :: rest) objects = .error e2 from by
        simp [build_dependency_tree, h0]] at h
      injection h with h2
      exact h2 ▸ resolveDeps_error_kind truthy objects s0 e2 h0
    | ok l =>
      cases h1 : build_dependency_tree truthy rest objects with
      | error e2 =>
        rw [show build_dependency_tree truthy ((n0, s0) :: rest) objects = .error e2 from by
          simp [build_dependency_tree, h0, h1]] at h
        injection h with h2
        exact h2 ▸ ih e2 h1
      | ok g =>
        rw [show build_dependency_tree truthy ((n0, s0) :: rest) objects =
            .ok ((n0, l) :: g) from by
          simp [build_dependency_tree, h0, h1]] at h
        cases h

/-- Every error escaping the module loop either propagates an import error
unchanged or is the `ValueError` from unpacking a `path:module` prefix. -/
theorem initModulesCore_error_kind {δ γ α μ : Type}
    (importModule : String → Except PyError (PyModule δ γ α μ)) :
    ∀ (paths : List String) (managers : List (String × μ))
      (modules : List (String × EntityModule δ γ α)) (e : PyError),
    initModulesCore importModule paths managers modules = .error e →
    (∃ p, importModule p = .error e) ∨
      e = .valueError "too many values to unpack (expected 2)" := by
  intro paths
  induction paths with
  | nil => intro managers modules e h; cases h
  | cons p rest ih =>
    intro managers modules e h
    cases hr : resolveModulePath p with
    | error e2 =>
      rw [show initModulesCore importModule (p :: rest) managers modules =
          .error e2 from by simp [initModulesCore, hr]] at h
      injection h with h2
      subst h2
      right
      unfold resolveModulePath at hr
      cases hs : splitFirstColon p.data with
      | none => rw [hs] at hr; cases hr
      | some pr =>
        obtain ⟨a, b⟩ := pr
        rw [hs] at hr
        dsimp only at hr
        by_cases hc : b.contains ':' = true
        · rw [if_pos hc] at hr
          injection hr with hr2
          exact hr2.symm
        · rw [if_neg hc] at hr
          cases hr
    | ok mp =>
      cases him : importModule mp with
      | error e2 =>
        rw [show initModulesCore importModule (p :: rest) managers modules =
            .error e2 from by simp [initModulesCore, hr, him]] at h
        injection h with h2
        exact Or.inl ⟨mp, h2 ▸ him⟩
      | ok m =>
        rw [show initModulesCore importModule (p :: rest) managers modules =
            initModulesCore importModule rest
              (dictSet managers m.configKey m.manager)
              (dictSet modules m.configName ⟨m.parseConfig, m.preprocessConfig⟩) from by
          simp [initModulesCore, hr, him]] at h
        exact ih _ _ e h

/-- Claim C2 counterexample: a dangling dependency reference is reported via
`raise Exception("Could not find %s" % dependency)` — a plain `Exception`,
not the claimed single `ConfigurationError` kind. -/
theorem c2_error_kinds_counterexample :
    build_dependency_tree (fun (_ : Nat) => true) [("a", ["b"])] [("a", 0)] =
      .error (.genericException ("Could not find " ++ "b"))
  ∧ isConfigurationException (.genericException ("Could not find " ++ "b")) = false :=
  ⟨rfl, rfl⟩

/-- Claim C2 (amended): the user/input failures of variable resolution
(missing required variable, disallowed value), of template rendering
(unresolved placeholder) and of include merging (duplicate top-level key)
all raise `ConfigurationException`; but an unknown entity `type` raises a
`KeyError` (and a non-mapping section a `TypeError`) — never a
`ConfigurationException` —, a dangling dependency reference raises a plain
`Exception("Could not find ...")`, and a module-load failure propagates the
underlying import error (or the `ValueError` from unpacking a `path:module`
prefix) unchanged. -/
theorem c2_error_kinds {β δ γ α μ : Type} :
    (∀ (varDefs : List (String × VarDef)) (provided environ : List (String × String))
        (e : PyError), read_variables varDefs provided environ = .error e →
        isConfigurationException e = true)
  ∧ (∀ (c : VariableContainer) (text : String) (extra : List (String × Option String))
        (e : PyError), c.render text extra = .error e →
        e = .configurationException "Unresolved variable")
  ∧ (∀ (acc : List (String × β)) (incs : List (String × List (String × β)))
        (e : PyError), mergeIncludes acc incs = .error e →
        isConfigurationException e = true)
  ∧ (∀ (modules : List (String × EntityModule δ γ α)) (vars : VariableContainer)
        (helper : γ) (config : List (String × ConfigValue δ))
        (objects : List (String × α)) (deps : List (String × List String))
        (e : PyError), processEntities modules vars helper config objects deps = .error e →
        isConfigurationException e = false)
  ∧ (∀ (truthy : α → Bool) (depsMap : List (String × List String))
        (objects : List (String × α)) (e : PyError),
        build_dependency_tree truthy depsMap objects = .error e →
        isConfigurationException e = false)
  ∧ (∀ (importM : String → Except PyError (PyModule δ γ α μ))
        (additionalModules : List String) (e : PyError),
        init_modules importM additionalModules = .error e →
        (∃ p, importM p = .error e) ∨
          e = .valueError "too many values to unpack (expected 2)") := by
  refine ⟨?_, ?_, ?_, ?_, ?_, ?_⟩
  · intro varDefs provided environ e h
    exact read_variables_error_kind varDefs provided environ e h
  · intro c text extra e h
    exact render_error_kind c text extra e h
  · intro acc incs e h
    exact mergeIncludes_error_kind incs acc e h
  · intro modules vars helper config objects deps e h
    exact processEntities_error_kind modules vars helper config objects deps e h
  · intro truthy depsMap objects e h
    obtain ⟨d, hd⟩ := build_dependency_tree_error_kind truthy objects depsMap e h
    rw [hd]
    rfl
  · intro importM additionalModules e h
    exact initModulesCore_error_kind importM (standardModules ++ additionalModules) [] [] e h

/-- Witness for C2 (amended): a missing required variable fails with the
`ConfigurationException` kind. -/
theorem c2_error_kinds_witness :
    isConfigurationException
      (.configurationException ("Missing required variable " ++ "x")) = true :=
  (c2_error_kinds (β := Unit) (δ := Unit) (γ := Unit) (α := Unit) (μ := Unit)).1
    [("x", ⟨none, none, true, none⟩)] [] []
    (.configurationException ("Missing required variable " ++ "x")) rfl

/-- One-step unfolding of `mergeDoc`. -/
theorem mergeDoc_cons {β : Type} (acc : List (String × β)) (path k : String) (v : β)
    (rest : List (String × β)) :
    mergeDoc acc path ((k, v) :: rest) =
      (if k ∈ acc.map Prod.fst then
        .error (.configurationException
          (k ++ " found in base config and include file " ++ path))
       else mergeDoc (acc ++ [(k, v)]) path rest) := rfl

/-- One-step unfolding of `mergeIncludes`. -/
theorem mergeIncludes_cons {β : Type} (acc : List (String × β)) (p : String)
    (d : List (String × β)) (rest : List (String × List (String × β))) :
    mergeIncludes acc ((p, d) :: rest) =
      (match mergeDoc acc p d with
       | .error e => .error e
       | .ok acc2 => mergeIncludes acc2 rest) := rfl

/-- `RelDoc` is reflexive. -/
theorem RelDoc_refl {δ : Type} : ∀ d : List (String × ConfigValue δ), RelDoc δ d d := by
  intro d
  induction d with
  | nil => exact RelDoc.nil
  | cons hd t ih =>
    obtain ⟨k, v⟩ := hd
    exact RelDoc.consSame k v ih

/-- Related documents have the same top-level keys. -/
theorem RelDoc_keys {δ : Type} {d1 d2 : List (String × ConfigValue δ)}
    (h : RelDoc δ d1 d2) : d1.map Prod.fst = d2.map Prod.fst := by
  induction h with
  | nil => rfl
  | consSame k v hrel ih => simp [ih]
  | consVars v1 v2 hrel ih => simp [ih]

/-- Related documents agree on lookups at every key other than `variables`. -/
theorem RelDoc_lookup {δ : Type} {d1 d2 : List (String × ConfigValue δ)}
    (h : RelDoc δ d1 d2) (k : String) (hk : k ≠ "variables") :
    dictLookup d1 k = dictLookup d2 k := by
  induction h with
  | nil => rfl
  | consSame k0 v hrel ih =>
    by_cases he : k0 = k
    · simp [dictLookup, he]
    · simp [dictLookup, he, ih]
  | consVars v1 v2 hrel ih =>
    have hne : ¬ ("variables" = k) := fun hh => hk hh.symm
    simp [dictLookup, hne, ih]

/-- `RelDoc` is preserved by appending related documents. -/
theorem RelDoc_append {δ : Type} {a1 a2 b1 b2 : List (String × ConfigValue δ)}
    (ha : RelDoc δ a1 a2) (hb : RelDoc δ b1 b2) : RelDoc δ (a1 ++ b1) (a2 ++ b2) := by
  induction ha with
  | nil => exact hb
  | consSame k v hrel ih => exact RelDoc.consSame k v ih
  | consVars v1 v2 hrel ih => exact RelDoc.consVars v1 v2 ih

/-- Merging related documents into related accumulators either fails with the
same error on both sides or succeeds with related results: the values stored
under `variables` never influence the merge outcome. -/
theorem mergeDoc_rel {δ : Type} {d1 d2 : List (String × ConfigValue δ)}
    (hd : RelDoc δ d1 d2) :
    ∀ {acc1 acc2 : List (String × ConfigValue δ)} (path : String),
    RelDoc δ acc1 acc2 →
    (∃ e, mergeDoc acc1 path d1 = .error e ∧ mergeDoc acc2 path d2 = .error e) ∨
    (∃ c1 c2, mergeDoc acc1 path d1 = .ok c1 ∧ mergeDoc acc2 path d2 = .ok c2 ∧
      RelDoc δ c1 c2) := by
  induction hd with
  | nil =>
    intro acc1 acc2 path hacc
    exact Or.inr ⟨acc1, acc2, rfl, rfl, hacc⟩
  | @consSame k v t1 t2 hrel ih =>
    intro acc1 acc2 path hacc
    by_cases hmem : k ∈ acc1.map Prod.fst
    · have hmem2 : k ∈ acc2.map Prod.fst := (RelDoc_keys hacc) ▸ hmem
      exact Or.inl ⟨_, by rw [mergeDoc_cons, if_pos hmem],
        by rw [mergeDoc_cons, if_pos hmem2]⟩
    · have hmem2 : ¬ k ∈ acc2.map Prod.fst := fun hin =>
        hmem ((RelDoc_keys hacc).symm ▸ hin)
      have hacc2 : RelDoc δ (acc1 ++ [(k, v)]) (acc2 ++ [(k, v)]) :=
        RelDoc_append hacc (RelDoc.consSame k v RelDoc.nil)
      rcases ih path hacc2 with ⟨e, h1, h2⟩ | ⟨c1, c2, h1, h2, hc⟩
      · exact Or.inl ⟨e, by rw [mergeDoc_cons, if_neg hmem, h1],
          by rw [mergeDoc_cons, if_neg hmem2, h2]⟩
      · exact Or.inr ⟨c1, c2, by rw [mergeDoc_cons, if_neg hmem, h1],
          by rw [mergeDoc_cons, if_neg hmem2, h2], hc⟩
  | @consVars v1 v2 t1 t2 hrel ih =>
    intro acc1 acc2 path hacc
    by_cases hmem : "variables" ∈ acc1.map Prod.fst
    · have hmem2 : "variables" ∈ acc2.map Prod.fst := (RelDoc_keys hacc) ▸ hmem
      exact Or.inl ⟨_, by rw [mergeDoc_cons, if_pos hmem],
        by rw [mergeDoc_cons, if_pos hmem2]⟩
    · have hmem2 : ¬ "variables" ∈ acc2.map Prod.fst := fun hin =>
        hmem ((RelDoc_keys hacc).symm ▸ hin)
      have hacc2 : RelDoc δ (acc1 ++ [("variables", v1)]) (acc2 ++ [("variables", v2)]) :=
        RelDoc_append hacc (RelDoc.consVars v1 v2 RelDoc.nil)
      rcases ih path hacc2 with ⟨e, h1, h2⟩ | ⟨c1, c2, h1, h2, hc⟩
      · exact Or.inl ⟨e, by rw [mergeDoc_cons, if_neg hmem, h1],
          by rw [mergeDoc_cons, if_neg hmem2, h2]⟩
      · exact Or.inr ⟨c1, c2, by rw [mergeDoc_cons, if_neg hmem, h1],
          by rw [mergeDoc_cons, if_neg hmem2, h2], hc⟩

/-- The include-merge loop on pairwise related include documents either fails
identically or produces related merged configs. -/
theorem mergeIncludes_rel {δ : Type}
    {incs1 incs2 : List (String × List (String × ConfigValue δ))}
    (hf : List.Forall₂ (fun pr1 pr2 => pr1.1 = pr2.1 ∧ RelDoc δ pr1.2 pr2.2) incs1 incs2) :
    ∀ {acc1 acc2 : List (String × ConfigValue δ)}, RelDoc δ acc1 acc2 →
    (∃ e, mergeIncludes acc1 incs1 = .error e ∧ mergeIncludes acc2 incs2 = .error e) ∨
    (∃ c1 c2, mergeIncludes acc1 incs1 = .ok c1 ∧ mergeIncludes acc2 incs2 = .ok c2 ∧
      RelDoc δ c1 c2) := by
  induction hf with
  | nil =>
    intro acc1 acc2 hacc
    exact Or.inr ⟨acc1, acc2, rfl, rfl, hacc⟩
  | @cons pr1 pr2 l1 l2 hpr hrest ih =>
    intro acc1 acc2 hacc
    obtain ⟨p1, dd1⟩ := pr1
    obtain ⟨p2, dd2⟩ := pr2
    obtain ⟨hpath, hdoc⟩ := hpr
    dsimp only at hpath hdoc
    subst hpath
    rcases mergeDoc_rel hdoc p1 hacc with ⟨e, h1, h2⟩ | ⟨c1, c2, h1, h2, hc⟩
    · exact Or.inl ⟨e, by rw [mergeIncludes_cons, h1],
        by rw [mergeIncludes_cons, h2]⟩
    · have e1 : mergeIncludes acc1 ((p1, dd1) :: l1) = mergeIncludes c1 l1 := by
        rw [mergeIncludes_cons, h1]
      have e2 : mergeIncludes acc2 ((p1, dd2) :: l2) = mergeIncludes c2 l2 := by
        rw [mergeIncludes_cons, h2]
      rcases ih hc with ⟨e, h3, h4⟩ | ⟨f1, f2, h3, h4, hc2⟩
      · exact Or.inl ⟨e, by rw [e1, h3], by rw [e2, h4]⟩
      · exact Or.inr ⟨f1, f2, by rw [e1, h3], by rw [e2, h4], hc2⟩

/-- The entity pipeline ignores the value stored under `variables` (and the
other reserved keys): related configs process identically. -/
theorem processEntities_rel {δ γ α : Type} (modules : List (String × EntityModule δ γ α))
    (vars : VariableContainer) (helper : γ) :
    ∀ {c1 c2 : List (String × ConfigValue δ)}, RelDoc δ c1 c2 →
    ∀ (objects : List (String × α)) (deps : List (String × List String)),
    processEntities modules vars helper c1 objects deps =
      processEntities modules vars helper c2 objects deps := by
  intro c1 c2 h
  induction h with
  | nil => intro objects deps; rfl
  | @consSame k v t1 t2 hrel ih =>
    intro objects deps
    by_cases hres : isReservedKey k = true
    · rw [show processEntities modules vars helper ((k, v) :: t1) objects deps =
          processEntities modules vars helper t1 objects deps from by
            simp [processEntities, hres],
        show processEntities modules vars helper ((k, v) :: t2) objects deps =
          processEntities modules vars helper t2 objects deps from by
            simp [processEntities, hres]]
      exact ih objects deps
    · cases v with
      | varsSection vs =>
        rw [show processEntities modules vars helper ((k, .varsSection vs) :: t1)
              objects deps = .error (.typeError "entity section is not a mapping") from by
            simp [processEntities, hres],
          show processEntities modules vars helper ((k, .varsSection vs) :: t2)
              objects deps = .error (.typeError "entity section is not a mapping") from by
            simp [processEntities, hres]]
      | modulesSection ms =>
        rw [show processEntities modules vars helper ((k, .modulesSection ms) :: t1)
              objects deps = .error (.typeError "entity section is not a mapping") from by
            simp [processEntities, hres],
          show processEntities modules vars helper ((k, .modulesSection ms) :: t2)
              objects deps = .error (.typeError "entity section is not a mapping") from by
            simp [processEntities, hres]]
      | includesSection ps =>
        rw [show processEntities modules vars helper ((k, .includesSection ps) :: t1)
              objects deps = .error (.typeError "entity section is not a mapping") from by
            simp [processEntities, hres],
          show processEntities modules vars helper ((k, .includesSection ps) :: t2)
              objects deps = .error (.typeError "entity section is not a mapping") from by
            simp [processEntities, hres]]
      | entity ec =>
        cases hm : dictLookup modules ec.typeName with
        | none =>
          rw [show processEntities modules vars helper ((k, .entity ec) :: t1)
                objects deps = .error (.keyError ec.typeName) from by
              simp [processEntities, hres, hm],
            show processEntities modules vars helper ((k, .entity ec) :: t2)
                objects deps = .error (.keyError ec.typeName) from by
              simp [processEntities, hres, hm]]
        | some m =>
          rw [show processEntities modules vars helper ((k, .entity ec) :: t1)
                objects deps =
              processEntities modules vars helper t1
                (processExpanded vars m.parseConfig helper
                  (expandWith m k ec helper) objects deps).1
                (processExpanded vars m.parseConfig helper
                  (expandWith m k ec helper) objects deps).2 from by
              simp [processEntities, hres, hm],
            show processEntities modules vars helper ((k, .entity ec) :: t2)
                objects deps =
              processEntities modules vars helper t2
                (processExpanded vars m.parseConfig helper
                  (expandWith m k ec helper) objects deps).1
                (processExpanded vars m.parseConfig helper
                  (expandWith m k ec helper) objects deps).2 from by
              simp [processEntities, hres, hm]]
          exact ih _ _
  | @consVars v1 v2 t1 t2 hrel ih =>
    intro objects deps
    rw [show processEntities modules vars helper (("variables", v1) :: t1) objects deps =
        processEntities modules vars helper t1 objects deps from by
          simp [processEntities, isReservedKey],
      show processEntities modules vars helper (("variables", v2) :: t2) objects deps =
        processEntities modules vars helper t2 objects deps from by
          simp [processEntities, isReservedKey]]
    exact ih objects deps

/-- `_read_config_entities` treats related configs identically. -/
theorem read_config_entities_rel {δ γ α : Type}
    (modules : List (String × EntityModule δ γ α)) (vars : VariableContainer)
    (helper : γ) (truthy : α → Bool) {c1 c2 : List (String × ConfigValue δ)}
    (h : RelDoc δ c1 c2) :
    read_config_entities modules vars helper truthy c1 =
      read_config_entities modules vars helper truthy c2 := by
  unfold read_config_entities
  rw [processEntities_rel modules vars helper h [] []]

/-- Claim C10: the variable container is computed solely from the root
document's `variables` section and the caller-provided variables, before any
include is merged (the load literally factors through
`read_variables (varsSectionOf rootDoc)`); an included `variables` section is
merged as an ordinary top-level key when fresh, is skipped by entity
processing (never resolved), and has no effect on the load: two include
environments differing only in the values their documents store under
`variables` load identically. -/
theorem c10_included_variables {δ γ α μ : Type}
    (rootDoc : List (String × ConfigValue δ))
    (f g : String → List (String × ConfigValue δ))
    (provided environ : List (String × String))
    (importM : String → Except PyError (PyModule δ γ α μ))
    (helperOf : VariableContainer → γ) (truthy : α → Bool) :
    (read_config rootDoc f provided environ importM helperOf truthy =
      (match read_variables (varsSectionOf rootDoc) provided environ with
       | .error e => .error e
       | .ok vars => readConfigRest rootDoc f importM helperOf truthy vars))
  ∧ ((∀ p, RelDoc δ (f p) (g p)) →
      read_config rootDoc f provided environ importM helperOf truthy =
        read_config rootDoc g provided environ importM helperOf truthy)
  ∧ (∀ (modules : List (String × EntityModule δ γ α)) (vars : VariableContainer)
        (helper : γ) (v : ConfigValue δ) (rest : List (String × ConfigValue δ))
        (objects : List (String × α)) (deps : List (String × List String)),
      processEntities modules vars helper (("variables", v) :: rest) objects deps =
        processEntities modules vars helper rest objects deps)
  ∧ (∀ (acc : List (String × ConfigValue δ)) (path : String) (v : ConfigValue δ),
      ¬ "variables" ∈ acc.map Prod.fst →
      mergeDoc acc path [("variables", v)] = .ok (acc ++ [("variables", v)])) := by
  refine ⟨rfl, ?_, ?_, ?_⟩
  · intro hrel
    unfold read_config
    cases hv : read_variables (varsSectionOf rootDoc) provided environ with
    | error e => rfl
    | ok vars =>
      dsimp only
      unfold readConfigRest
      have hf2 : List.Forall₂ (fun pr1 pr2 => pr1.1 = pr2.1 ∧ RelDoc δ pr1.2 pr2.2)
          ((includesOf rootDoc).map (fun p => (p, f p)))
          ((includesOf rootDoc).map (fun p => (p, g p))) := by
        induction includesOf rootDoc with
        | nil => exact List.Forall₂.nil
        | cons p rest ih => exact List.Forall₂.cons ⟨rfl, hrel p⟩ ih
      rcases mergeIncludes_rel hf2 (RelDoc_refl rootDoc) with
        ⟨e, h1, h2⟩ | ⟨c1, c2, h1, h2, hc⟩
      · rw [h1, h2]
      · rw [h1, h2]
        dsimp only
        have hmod : modulesOf c1 = modulesOf c2 := by
          unfold modulesOf
          rw [RelDoc_lookup hc "modules" (by decide)]
        rw [hmod]
        cases him : init_modules importM (modulesOf c2) with
        | error e => rfl
        | ok pr =>
          obtain ⟨managers, modules⟩ := pr
          dsimp only
          rw [read_config_entities_rel modules vars (helperOf vars) truthy hc]
  · intro modules vars helper v rest objects deps
    simp [processEntities, isReservedKey]
  · intro acc path v hmem
    exact mergeDoc_ok_of_fresh [("variables", v)] acc path
      (by
        intro k hk
        rw [show (List.map Prod.fst [("variables", v)]) = ["variables"] from rfl,
          List.mem_singleton] at hk
        subst hk
        exact hmem)
      (by simp)

/-- Witness for C10: a load whose single include carries a (required,
value-less) `variables` section behaves exactly like the load whose include
carries an empty `variables` section — the included section is inert. -/
theorem c10_included_variables_witness :
    read_config exampleRootDoc exampleIncludesA [] []
      (fun _ => .ok examplePyModule) (fun _ => ()) (fun _ => true) =
    read_config exampleRootDoc exampleIncludesB [] []
      (fun _ => .ok examplePyModule) (fun _ => ()) (fun _ => true) :=
  (c10_included_variables exampleRootDoc exampleIncludesA exampleIncludesB [] []
    (fun _ => .ok examplePyModule) (fun _ => ()) (fun _ => true)).2.1
    (fun _ => RelDoc.consVars _ _ RelDoc.nil)
